import Mathlib

/-!
Verification of the object-sync decision engine, tag reconciliation and retry
structure of src/plugins/modules/aws_s3.py (an S3 object-management module).

The module's logic is embedded shallowly: remote-store and filesystem
observations (existence flags, ETags, timestamps, tag sets, call outcomes) are
inputs; the module's control flow is translated into pure functions that return
the list of remote calls issued (a trace of events) together with the terminal
outcome (an exit with a changed flag, or a failure kind).
-/

set_option maxHeartbeats 1000000

/-- A tag dictionary, as returned by get_object_tagging and manipulated by
ensure_tags. Python dict equality is key-value-set equality, which `Finmap`
equality matches exactly. -/
abbrev TagDict : Type := Finmap (fun _ : String => String)

/-- The four recognized overwrite policies (module option `overwrite`,
lines 970-974 of the source). -/
inductive Overwrite
  | always
  | never
  | different
  | latest
deriving DecidableEq, Repr

/-- The `mode` parameter dispatch values (argument_spec, line 913). -/
inductive Mode
  | get
  | put
  | delete
  | create
  | geturl
  | getstr
  | delobj
  | list
  | copy
deriving DecidableEq, Repr

/-- Remote calls issued during an invocation, in program order. Key-bearing
events record the object key passed to the remote store. -/
inductive Event
  | connect
  | headBucket
  | createBucket
  | headObject (key : String)
  | getObjectCall (key : String)
  | downloadFile (key : String)
  | uploadFile (key : String)
  | putObject (key : String)
  | getTagging (key : String)
  | putTagging (key : String)
  | deleteTagging (key : String)
  | presignUrl (key : String)
deriving DecidableEq, Repr

/-- Failure kinds, one per distinct fail_json site relevant to the claims. -/
inductive ErrKind
  | missingRequiredParam
  | invalidBucketName
  | overwriteNotBoolean
  | md5Unavailable
  | objWithDelete
  | bucketNotFound
  | keyNotFound
  | putNoSource
  | putSrcMissing
  | putFailed
  | getObjectFailed
  | downloadFailed
  | uncaughtSigv4
  | createKeyFailed
  | tagsNotApplied
  | tagsUpdateFailed
  | tagsDeleteFailed
deriving DecidableEq, Repr

/-- Successful exit messages relevant to the claims. -/
inductive MsgKind
  | getSkippedNever
  | getSkippedIdentical
  | getSkippedLatest
  | getComplete
  | putSkippedExisting
  | putComplete
  | createBucketExists
  | createBucketDone
  | createKeyExists
  | createKeyDone
  | otherMode
deriving DecidableEq, Repr

/-- Terminal result of an invocation: module.exit_json with a changed flag, or
module.fail_json with an error kind. -/
inductive Outcome
  | exited (msg : MsgKind) (changed : Bool)
  | failed (e : ErrKind)
deriving DecidableEq, Repr

/-- etag_compare (source lines 405-412): the remote ETag is compared for exact
string equality against the locally computed fingerprint (calculate_etag or
calculate_etag_content, supplied here as an input). -/
def etag_compare (s3_etag local_etag : String) : Bool :=
  s3_etag == local_etag

/-- is_local_object_latest (source lines 438-445): false if the local file does
not exist, otherwise true iff the remote LastModified timestamp is less than or
equal to the local modification time. -/
def is_local_object_latest (s3_last_modified : Int) (localExists : Bool)
    (localMtime : Int) : Bool :=
  if localExists = false then false
  else decide (s3_last_modified ≤ localMtime)

/-- The tag-propagation poll runs a fixed 12 attempts (source line 853). -/
def tagPollAttempts : Nat := 12

/-- Each failed poll sleeps a fixed 5 seconds (source line 859). -/
def tagPollDelay : Nat := 5

/-- Result of the tag-wait loop: the sequence of observed tag dictionaries, the
total seconds slept, and the returned dictionary (none means the bounded budget
ran out and the module fails). -/
structure WaitResult where
  polls : List TagDict
  sleepSeconds : Nat
  result : Option TagDict
deriving DecidableEq

/-- Loop body of wait_tags_are_applied (source lines 852-864): for each of the
remaining `fuel` iterations, observe the tags (`obs i` is the i-th
observation); on a match return it, otherwise sleep a fixed delay and retry. -/
def waitLoop (obs : Nat → TagDict) (expected : TagDict) : Nat → Nat → WaitResult
  | _, 0 => ⟨[], 0, none⟩
  | i, fuel + 1 =>
    let c := obs i
    if c = expected then ⟨[c], 0, some c⟩
    else
      let r := waitLoop obs expected (i + 1) fuel
      ⟨c :: r.polls, tagPollDelay + r.sleepSeconds, r.result⟩

/-- wait_tags_are_applied (source lines 852-864): poll at most `tagPollAttempts`
times starting from observation 0. -/
def wait_tags_are_applied (obs : Nat → TagDict) (expected : TagDict) : WaitResult :=
  waitLoop obs expected 0 tagPollAttempts

/-- The tag set ensure_tags writes (source lines 879-884): with purge the
desired set replaces the current set; without purge the desired tags are merged
over the current ones (Python dict.update, i.e. left-biased union with the
desired side winning). -/
def tagTarget (current desired : TagDict) (purge : Bool) : TagDict :=
  if purge then desired else desired ∪ current

/-- The remote tag mutation ensure_tags can issue. -/
inductive TagMutation
  | putTags (target : TagDict)
  | deleteTags
deriving DecidableEq

/-- Outcome classification of one attempt of a retry-wrapped remote call:
success, an error the AWSRetry decorator retries on (throttling plus
NoSuchBucket and OperationAborted, lines 842-849), or any other error, which
propagates immediately. -/
inductive CallResult
  | ok
  | retryable
  | fatal
deriving DecidableEq, Repr

/-- Attempt budget of the AWSRetry.jittered_backoff decorator wrapping
put_object_tagging and delete_object_tagging (module_utils code outside this
file's source; its documented default budget of 10 attempts is used). -/
def awsRetryAttempts : Nat := 10

/-- Attempt loop of the AWSRetry.jittered_backoff decorator: re-attempt the
wrapped call while it fails with a retryable error and budget remains; return
the number of attempts made together with the final result. -/
def awsRetryLoop (outcome : Nat → CallResult) : Nat → Nat → Nat × CallResult
  | _, 0 => (0, CallResult.retryable)
  | i, fuel + 1 =>
    match outcome i with
    | CallResult.retryable =>
      if fuel = 0 then (1, CallResult.retryable)
      else
        let r := awsRetryLoop outcome (i + 1) fuel
        (r.1 + 1, r.2)
    | res => (1, res)

/-- The AWSRetry.jittered_backoff decorator applied to one remote call, with
`outcome i` the result of the i-th attempt. -/
def awsRetry (outcome : Nat → CallResult) : Nat × CallResult :=
  awsRetryLoop outcome 0 awsRetryAttempts

/-- put_object_tagging (source lines 842-844): the s3.put_object_tagging call
wrapped in AWSRetry.jittered_backoff, so it may be attempted several times;
one event is recorded per attempt. -/
def put_object_tagging (key : String) (outcome : Nat → CallResult) :
    List Event × CallResult :=
  (List.replicate (awsRetry outcome).1 (Event.putTagging key), (awsRetry outcome).2)

/-- delete_object_tagging (source lines 847-849): the s3.delete_object_tagging
call wrapped in AWSRetry.jittered_backoff. -/
def delete_object_tagging (key : String) (outcome : Nat → CallResult) :
    List Event × CallResult :=
  (List.replicate (awsRetry outcome).1 (Event.deleteTagging key), (awsRetry outcome).2)

/-- Result of ensure_tags: the events issued, the mutation issued (if any), and
either the returned (current tags, changed) pair or the failure the module
exits with (a failed mutation call, or an exhausted tag-wait budget). -/
structure TagsFlow where
  events : List Event
  tagMutation : Option TagMutation
  result : Except ErrKind (TagDict × Bool)

/-- Tail of ensure_tags after a successful (or absent) mutation call: wait for
the tags to propagate; an exhausted wait budget is the fatal tagsNotApplied
failure, a match returns the observed tags with changed true. -/
def tagWaitTail (key : String) (target : TagDict) (evs : List Event)
    (m : Option TagMutation) (obs : Nat → TagDict) : TagsFlow :=
  let w := wait_tags_are_applied obs target
  let pollEvents := w.polls.map (fun _ => Event.getTagging key)
  match w.result with
  | none => ⟨evs ++ pollEvents, m, Except.error ErrKind.tagsNotApplied⟩
  | some c => ⟨evs ++ pollEvents, m, Except.ok (c, true)⟩

/-- ensure_tags (source lines 867-899): read the current tags; if a desired set
was supplied, compute the target (merge unless purging), and when it differs
from the current set issue the retry-wrapped put_object_tagging (nonempty
target) or delete_object_tagging (empty target under purge) — a mutation call
that ultimately fails is fatal — then wait for the tags to propagate; changed
is reported iff a mutation path was taken. `mutCall i` is the outcome of the
i-th attempt of the wrapped mutation call. -/
def ensure_tags (key : String) (currentTags : TagDict) (desired : Option TagDict)
    (purge : Bool) (obs : Nat → TagDict) (mutCall : Nat → CallResult) : TagsFlow :=
  match desired with
  | none => ⟨[Event.getTagging key], none, Except.ok (currentTags, false)⟩
  | some t =>
    let target := tagTarget currentTags t purge
    if currentTags = target then ⟨[Event.getTagging key], none, Except.ok (currentTags, false)⟩
    else if target ≠ ∅ then
      let c := put_object_tagging key mutCall
      if c.2 = CallResult.ok then
        tagWaitTail key target (Event.getTagging key :: c.1)
          (some (TagMutation.putTags target)) obs
      else
        ⟨Event.getTagging key :: c.1, some (TagMutation.putTags target),
          Except.error ErrKind.tagsUpdateFailed⟩
    else if purge then
      let c := delete_object_tagging key mutCall
      if c.2 = CallResult.ok then
        tagWaitTail key target (Event.getTagging key :: c.1) (some TagMutation.deleteTags) obs
      else
        ⟨Event.getTagging key :: c.1, some TagMutation.deleteTags,
          Except.error ErrKind.tagsDeleteFailed⟩
    else
      tagWaitTail key target [Event.getTagging key] none obs

/-- Attempt loop of download_s3file (source lines 684-698): `fuel` attempts
remain, the current attempt index is `x`; a successful s3.download_file exits
with changed true, a failing one is fatal only on the last pass (fuel = 1). -/
def downloadLoop (key : String) (attemptOk : Nat → Bool) : Nat → Nat → List Event × Outcome
  | _, 0 => ([], Outcome.failed ErrKind.downloadFailed)
  | x, fuel + 1 =>
    if attemptOk x then ([Event.downloadFile key], Outcome.exited MsgKind.getComplete true)
    else if fuel = 0 then ([Event.downloadFile key], Outcome.failed ErrKind.downloadFailed)
    else
      let r := downloadLoop key attemptOk (x + 1) fuel
      (Event.downloadFile key :: r.1, r.2)

/-- Outcome of the initial s3.get_object call of download_s3file: success, a
'require AWS Signature Version 4' error (raised to the caller as the
Sigv4Required exception, source lines 677-678), or any other error (404, 403,
InvalidArgument, transport), which is fatal at once. -/
inductive GetObjectResult
  | ok
  | sigv4
  | notFound
deriving DecidableEq, Repr

/-- download_s3file (source lines 663-698): one s3.get_object call — a
signature-v4 demand raises Sigv4Required to the caller (modeled as the error
case), any other failure is fatal at once — then the bulk download is
attempted retries + 1 times. -/
def download_s3file (key : String) (retries : Nat) (getObj : GetObjectResult)
    (attemptOk : Nat → Bool) : List Event × Except Unit Outcome :=
  match getObj with
  | GetObjectResult.ok =>
    let r := downloadLoop key attemptOk 0 (retries + 1)
    (Event.getObjectCall key :: r.1, Except.ok r.2)
  | GetObjectResult.sigv4 => ([Event.getObjectCall key], Except.error ())
  | GetObjectResult.notFound =>
    ([Event.getObjectCall key], Except.ok (Outcome.failed ErrKind.getObjectFailed))

/-- Truthy boolean literals of the host runtime's boolean conversion. -/
def hostBooleanTrue : List String := ["y", "yes", "on", "1", "true", "t"]

/-- Falsy boolean literals of the host runtime's boolean conversion. -/
def hostBooleanFalse : List String := ["n", "no", "off", "0", "false", "f"]

/-- ASCII lower-casing of one character (kernel-computable form). -/
def lowerChar (c : Char) : Char :=
  if 'A' ≤ c ∧ c ≤ 'Z' then Char.ofNat (c.toNat + 32) else c

/-- ASCII lower-casing of a string (kernel-computable form). -/
def lowerString (s : String) : String :=
  String.mk (s.data.map lowerChar)

/-- Boolean conversion performed by module.boolean (host runtime dependency,
outside this repository): the documented truthy and falsy literals convert
case-insensitively; any other value is a validation failure reported through
fail_json rather than a coercion. -/
def module_boolean (s : String) : Option Bool :=
  let l := lowerString s
  if hostBooleanTrue.contains l then some true
  else if hostBooleanFalse.contains l then some false
  else none

/-- The four recognized overwrite policy strings (source line 970). -/
def overwriteChoices : List String := ["always", "never", "different", "latest"]

/-- Overwrite coercion (source lines 970-974): a value outside the four policy
strings is passed to module.boolean; truthy becomes always, falsy becomes
never, and an unrecognized value fails. -/
def coerce_overwrite (raw : String) : Except ErrKind Overwrite :=
  if raw = "always" then Except.ok Overwrite.always
  else if raw = "never" then Except.ok Overwrite.never
  else if raw = "different" then Except.ok Overwrite.different
  else if raw = "latest" then Except.ok Overwrite.latest
  else
    match module_boolean raw with
    | some true => Except.ok Overwrite.always
    | some false => Except.ok Overwrite.never
    | none => Except.error ErrKind.overwriteNotBoolean

/-- Whether a key begins with the character '/' (str.startswith in the
source, in kernel-computable form). -/
def beginsWithSlash (o : String) : Bool :=
  match o.data with
  | [] => false
  | c :: _ => c = '/'

/-- Leading-slash stripping (source lines 989-994): a key beginning with '/'
loses exactly that one character. -/
def stripLeadingSlash (o : String) : String :=
  if beginsWithSlash o = true then o.drop 1 else o

/-- The object key actually used by the rest of main: the stripping is applied
only when the parameter is truthy (non-empty), mirroring the source's guard. -/
def effectiveObj : Option String → Option String
  | none => none
  | some o => if o = "" then some o else some (stripLeadingSlash o)

/-- Whether a key ends with the character '/' (str.endswith in the source, in
kernel-computable form). -/
def endsWithSlash (o : String) : Bool :=
  match o.data.getLast? with
  | some c => c = '/'
  | none => false

/-- The directory key used by create mode (source lines 1136-1139): the
object key with a trailing '/' appended when not already present. -/
def dirObj (o : String) : String :=
  if endsWithSlash o = true then o else o ++ "/"

/-- Python truthiness of an optional string parameter. -/
def objTruthy : Option String → Bool
  | none => false
  | some s => s != ""

/-- The invocation parameters relevant to the claims. `bucketNameValid` stands
for the outcome of validate_bucket_name (module_utils helper outside this
file's source, treated as an abstract verdict). -/
structure Params where
  mode : Mode
  bucketNameValid : Bool
  overwrite : String
  obj : Option String
  dest : Option String
  src : Option String
  content : Option String
  contentBase64 : Option String
  tags : Option TagDict
  purgeTags : Bool
  ignoreNonexistentBucket : Bool

/-- The observed environment: runtime capabilities, remote store state and
call outcomes, and local filesystem state. `localEtag` is the fingerprint
calculate_etag / calculate_etag_content computes for the local artifact;
`dirKeyExists` is the key_check result for the directory key of create mode;
`getObj1` is the outcome of the first get_object call and `getObj2` the
outcome of the one re-attempted on a fresh signature-v4 connection; `tagCall`
gives the outcomes of successive attempts of the retry-wrapped tag mutation
call. -/
structure Env where
  hasMD5 : Bool
  bucketExists : Bool
  keyExists : Bool
  dirKeyExists : Bool
  remoteEtag : String
  localEtag : String
  remoteLastModified : Int
  destExists : Bool
  destMtime : Int
  srcExists : Bool
  uploadOk : Bool
  putObjectOk : Bool
  getObj1 : GetObjectResult
  getObj2 : GetObjectResult
  downloadOk : Nat → Bool
  currentTags : TagDict
  tagObs : Nat → TagDict
  tagCall : Nat → CallResult

/-- The re-attempt wrapper of main (source lines 1049-1053): a Sigv4Required
raised by download_s3file makes main open a fresh signature-v4 connection and
call download_s3file once more; a second Sigv4Required would propagate
uncaught. -/
def download_with_sigv4 (key : String) (retries : Nat) (env : Env) :
    List Event × Outcome :=
  let d1 := download_s3file key retries env.getObj1 env.downloadOk
  match d1.2 with
  | Except.ok o => (d1.1, o)
  | Except.error _ =>
    let d2 := download_s3file key retries env.getObj2 env.downloadOk
    match d2.2 with
    | Except.ok o => (d1.1 ++ Event.connect :: d2.1, o)
    | Except.error _ => (d1.1 ++ Event.connect :: d2.1, Outcome.failed ErrKind.uncaughtSigv4)

/-- Required-parameter combinations enforced by the module constructor
(required_if, source lines 935-939), for the modes modeled here. -/
def requiredParamsOk (p : Params) : Bool :=
  match p.mode with
  | Mode.put => p.obj.isSome
  | Mode.get => p.dest.isSome && p.obj.isSome
  | Mode.getstr => p.obj.isSome
  | Mode.geturl => p.obj.isSome
  | _ => true

/-- The pure validation stage of main (source lines 932-1009), executed before
any connection is opened: required parameters, bucket-name validation,
overwrite coercion, the MD5-availability check for overwrite=different, and the
object-with-delete check, in source order. -/
def main_validate (p : Params) (hasMD5 : Bool) : Except ErrKind Overwrite :=
  if requiredParamsOk p = false then Except.error ErrKind.missingRequiredParam
  else if p.bucketNameValid = false then Except.error ErrKind.invalidBucketName
  else
    match coerce_overwrite p.overwrite with
    | Except.error e => Except.error e
    | Except.ok ow =>
      if ow = Overwrite.different ∧ hasMD5 = false then Except.error ErrKind.md5Unavailable
      else if objTruthy (effectiveObj p.obj) = true ∧ p.mode = Mode.delete then
        Except.error ErrKind.objWithDelete
      else Except.ok ow

/-- Modes for which a missing bucket is fatal before dispatch (source
line 1030). -/
def modeNeedsBucket (m : Mode) : Bool :=
  match m with
  | Mode.create => false
  | Mode.put => false
  | Mode.delete => false
  | Mode.copy => false
  | _ => true

/-- GET branch of main (source lines 1033-1053): key_check, the overwrite
decision ladder (never, different via etag_compare, latest via
is_local_object_latest), then download_s3file wrapped in the Sigv4Required
re-attempt of main. -/
def get_flow (retries : Nat) (env : Env) (ow : Overwrite) (key dest : String) :
    List Event × Outcome :=
  if env.keyExists = false then
    ([Event.headObject key], Outcome.failed ErrKind.keyNotFound)
  else if dest ≠ "" ∧ env.destExists = true ∧ ow ≠ Overwrite.always then
    if ow = Overwrite.never then
      ([Event.headObject key], Outcome.exited MsgKind.getSkippedNever false)
    else if ow = Overwrite.different then
      if etag_compare env.remoteEtag env.localEtag = true then
        ([Event.headObject key, Event.headObject key],
          Outcome.exited MsgKind.getSkippedIdentical false)
      else
        let d := download_with_sigv4 key retries env
        (Event.headObject key :: Event.headObject key :: d.1, d.2)
    else if ow = Overwrite.latest then
      if is_local_object_latest env.remoteLastModified env.destExists env.destMtime = true then
        ([Event.headObject key, Event.headObject key],
          Outcome.exited MsgKind.getSkippedLatest false)
      else
        let d := download_with_sigv4 key retries env
        (Event.headObject key :: Event.headObject key :: d.1, d.2)
    else
      let d := download_with_sigv4 key retries env
      (Event.headObject key :: d.1, d.2)
  else
    let d := download_with_sigv4 key retries env
    (Event.headObject key :: d.1, d.2)

/-- Skip branch of the PUT flow (source lines 1081-1085): existing object kept,
tags reconciled, presigned URL returned with changed reflecting only the tag
update. -/
def put_skip_path (key : String) (t : List Event) (p : Params) (env : Env) :
    List Event × Outcome :=
  let er := ensure_tags key env.currentTags p.tags p.purgeTags env.tagObs env.tagCall
  match er.result with
  | Except.error e => (t ++ er.events, Outcome.failed e)
  | Except.ok (_, ch) =>
    (t ++ er.events ++ [Event.presignUrl key], Outcome.exited MsgKind.putSkippedExisting ch)

/-- upload_s3file (source lines 604-660): a single upload attempt whose first
failure is fatal; on success tags are reconciled, a presigned URL is generated
and the module exits with changed true. -/
def upload_path (key : String) (t : List Event) (p : Params) (env : Env) :
    List Event × Outcome :=
  if env.uploadOk = false then
    (t ++ [Event.uploadFile key], Outcome.failed ErrKind.putFailed)
  else
    let er := ensure_tags key env.currentTags p.tags p.purgeTags env.tagObs env.tagCall
    match er.result with
    | Except.error e => (t ++ Event.uploadFile key :: er.events, Outcome.failed e)
    | Except.ok _ =>
      (t ++ Event.uploadFile key :: er.events ++ [Event.presignUrl key],
        Outcome.exited MsgKind.putComplete true)

/-- PUT branch of main (source lines 1055-1089): source/content presence
checks, key_check (or bucket creation), then the skip decision — an existing
key is kept when overwrite is never or, for any other non-always policy, when
etag_compare finds the fingerprints equal; otherwise upload_s3file runs. -/
def put_flow (p : Params) (env : Env) (ow : Overwrite) (key : String) :
    List Event × Outcome :=
  if p.content = none ∧ p.contentBase64 = none ∧ p.src = none then
    ([], Outcome.failed ErrKind.putNoSource)
  else if p.src ≠ none ∧ env.srcExists = false then
    ([], Outcome.failed ErrKind.putSrcMissing)
  else if env.bucketExists = true then
    if env.keyExists = true ∧ ow ≠ Overwrite.always then
      if ow = Overwrite.never then put_skip_path key [Event.headObject key] p env
      else if etag_compare env.remoteEtag env.localEtag = true then
        put_skip_path key [Event.headObject key, Event.headObject key] p env
      else upload_path key [Event.headObject key, Event.headObject key] p env
    else upload_path key [Event.headObject key] p env
  else upload_path key [Event.createBucket] p env

/-- create_dirkey (source lines 549-579): put the empty directory-key object
(first failure fatal; the per-ACL put_object_acl calls are kept abstract),
reconcile tags on the directory key, generate the presigned URL (the source
generates it twice), and exit changed true. -/
def create_dirkey_flow (key : String) (p : Params) (env : Env) :
    List Event × Outcome :=
  if env.putObjectOk = false then
    ([Event.putObject key], Outcome.failed ErrKind.createKeyFailed)
  else
    let er := ensure_tags key env.currentTags p.tags p.purgeTags env.tagObs env.tagCall
    match er.result with
    | Except.error e => (Event.putObject key :: er.events, Outcome.failed e)
    | Except.ok _ =>
      (Event.putObject key :: er.events ++ [Event.presignUrl key, Event.presignUrl key],
        Outcome.exited MsgKind.createKeyDone true)

/-- create branch of main (source lines 1123-1153): without a truthy object
key the bucket is created (or reported as existing); with one, the directory
key — the object key with a trailing '/' appended when not already present —
is checked and created, so the remote object operations of this mode use the
directory key, not the stripped key itself. The bucket-creation call sequence
(create_bucket, its waiter and its retry-wrapped ACL calls, lines 464-488) is
kept abstract as a single event. -/
def create_flow (p : Params) (env : Env) (keyOpt : Option String) :
    List Event × Outcome :=
  if objTruthy keyOpt = false then
    if env.bucketExists = true then ([], Outcome.exited MsgKind.createBucketExists false)
    else ([Event.createBucket], Outcome.exited MsgKind.createBucketDone true)
  else
    let dk := dirObj (keyOpt.getD "")
    if env.bucketExists = true then
      if env.dirKeyExists = true then
        ([Event.headObject dk], Outcome.exited MsgKind.createKeyExists false)
      else
        let c := create_dirkey_flow dk p env
        (Event.headObject dk :: c.1, c.2)
    else
      let c := create_dirkey_flow dk p env
      (Event.createBucket :: c.1, c.2)

/-- main (source lines 902-1196) restricted to the structure the claims need:
the pure validation stage, then connection and bucket check, then the mode
dispatch with the GET, PUT and create flows in detail; the remaining modes are
collapsed into a single abstract outcome. The caller-configurable retry count
is passed separately from the other parameters. -/
def main_model (p : Params) (retries : Nat) (env : Env) : List Event × Outcome :=
  match main_validate p env.hasMD5 with
  | Except.error e => ([], Outcome.failed e)
  | Except.ok ow =>
    let t0 := [Event.connect, Event.headBucket]
    if p.ignoreNonexistentBucket = false ∧ modeNeedsBucket p.mode = true ∧
        env.bucketExists = false then
      (t0, Outcome.failed ErrKind.bucketNotFound)
    else
      match p.mode with
      | Mode.get =>
        let r := get_flow retries env ow ((effectiveObj p.obj).getD "") (p.dest.getD "")
        (t0 ++ r.1, r.2)
      | Mode.put =>
        let r := put_flow p env ow ((effectiveObj p.obj).getD "")
        (t0 ++ r.1, r.2)
      | Mode.create =>
        let r := create_flow p env (effectiveObj p.obj)
        (t0 ++ r.1, r.2)
      | _ => (t0, Outcome.exited MsgKind.otherMode true)

/-- The object key named by a remote-call event, when it carries one. -/
def eventKey : Event → Option String
  | Event.headObject k => some k
  | Event.getObjectCall k => some k
  | Event.downloadFile k => some k
  | Event.uploadFile k => some k
  | Event.putObject k => some k
  | Event.getTagging k => some k
  | Event.putTagging k => some k
  | Event.deleteTagging k => some k
  | Event.presignUrl k => some k
  | _ => none

/-- Whether an event is a bulk-download attempt. -/
def isDownloadEvent : Event → Bool
  | Event.downloadFile _ => true
  | _ => false

/-- Keep the events that are not bulk-download attempts. -/
def notDownload (e : Event) : Bool := !(isDownloadEvent e)

/-- A trace whose key-bearing events all name the given object key. -/
def keyOnly (key : String) (l : List Event) : Prop :=
  ∀ e ∈ l, eventKey e = none ∨ eventKey e = some key

/-- Sample tag dictionary: one owner entry. -/
def sampleTagsA : TagDict := Finmap.insert "owner" "alice" ∅

/-- Sample tag dictionary: a conflicting owner entry. -/
def sampleTagsB : TagDict := Finmap.insert "owner" "bob" ∅

/-- Sample tag dictionary: owner plus an extra key. -/
def sampleTagsAB : TagDict := Finmap.insert "env" "ci" (Finmap.insert "owner" "alice" ∅)

/-- Environment: upload with matching fingerprints. -/
def envPutMatch : Env :=
  ⟨true, true, true, false, "e1", "e1", 0, false, 0, true, true, true,
    GetObjectResult.ok, GetObjectResult.ok, fun _ => true, ∅, fun _ => ∅, fun _ => CallResult.ok⟩

/-- Environment: upload with differing fingerprints. -/
def envPutDiff : Env :=
  ⟨true, true, true, false, "e1", "e2", 0, false, 0, true, true, true,
    GetObjectResult.ok, GetObjectResult.ok, fun _ => true, ∅, fun _ => ∅, fun _ => CallResult.ok⟩

/-- Environment: download with matching fingerprints, local file present. -/
def envGetMatch : Env :=
  ⟨true, true, true, false, "e1", "e1", 10, true, 3, true, true, true,
    GetObjectResult.ok, GetObjectResult.ok, fun _ => true, ∅, fun _ => ∅, fun _ => CallResult.ok⟩

/-- Environment: download where the local file is strictly older than remote. -/
def envGetOld : Env :=
  ⟨true, true, true, false, "e1", "e2", 10, true, 3, true, true, true,
    GetObjectResult.ok, GetObjectResult.ok, fun _ => true, ∅, fun _ => ∅, fun _ => CallResult.ok⟩

/-- Environment: download where the local file is at least as new as remote. -/
def envGetNew : Env :=
  ⟨true, true, true, false, "e1", "e2", 2, true, 3, true, true, true,
    GetObjectResult.ok, GetObjectResult.ok, fun _ => true, ∅, fun _ => ∅, fun _ => CallResult.ok⟩

/-- Environment without MD5 support in the runtime. -/
def envNoMD5 : Env :=
  ⟨false, true, true, false, "e1", "e1", 0, true, 0, true, true, true,
    GetObjectResult.ok, GetObjectResult.ok, fun _ => true, ∅, fun _ => ∅, fun _ => CallResult.ok⟩

/-- Parameters: PUT with overwrite latest. -/
def paramsPutLatest : Params :=
  ⟨Mode.put, true, "latest", some "k", none, some "f", none, none, none, true, false⟩

/-- Parameters: PUT with overwrite different. -/
def paramsPutDifferent : Params :=
  ⟨Mode.put, true, "different", some "k", none, some "f", none, none, none, true, false⟩

/-- Parameters: GET with overwrite different and a slash-prefixed key. -/
def paramsGetDifferent : Params :=
  ⟨Mode.get, true, "different", some "/k", some "d", none, none, none, none, true, false⟩

/-- Parameters: GET with overwrite latest. -/
def paramsGetLatest : Params :=
  ⟨Mode.get, true, "latest", some "k", some "d", none, none, none, none, true, false⟩

/-- Parameters: overwrite given as the boolean literal yes. -/
def paramsOverwriteYes : Params :=
  ⟨Mode.put, true, "yes", some "k", none, some "f", none, none, none, true, false⟩

/-- Parameters: unrecognized overwrite value. -/
def paramsOverwriteMaybe : Params :=
  ⟨Mode.put, true, "maybe", some "k", none, some "f", none, none, none, true, false⟩

/-- Parameters: PUT with overwrite always requesting a tag set. -/
def paramsPutTags : Params :=
  ⟨Mode.put, true, "always", some "k", none, some "f", none, none, some sampleTagsA, true, false⟩

/-- Parameters: GET with overwrite always. -/
def paramsGetAlways : Params :=
  ⟨Mode.get, true, "always", some "k", some "d", none, none, none, none, true, false⟩

/-- Parameters: create mode with a slash-prefixed object key naming a virtual
directory. -/
def paramsCreateDir : Params :=
  ⟨Mode.create, true, "always", some "/d", none, none, none, none, none, true, false⟩

/-- Parameters: PUT requesting a tag set that will never propagate. -/
def paramsTagsTimeout : Params :=
  ⟨Mode.put, true, "always", some "k", none, some "f", none, none, some sampleTagsA, true, false⟩

/-- Environment whose tag observations never reach the requested target. -/
def envTagsTimeout : Env :=
  ⟨true, true, true, false, "e1", "e2", 0, false, 0, true, true, true,
    GetObjectResult.ok, GetObjectResult.ok, fun _ => true, ∅, fun _ => ∅, fun _ => CallResult.ok⟩

/-- Environment where the first tag mutation attempt fails with a retryable
error and the second succeeds, and the first tag poll matches. -/
def envTagRetry : Env :=
  ⟨true, true, true, false, "e1", "e2", 0, false, 0, true, true, true,
    GetObjectResult.ok, GetObjectResult.ok, fun _ => true, ∅, fun _ => sampleTagsA,
    fun i => if i = 0 then CallResult.retryable else CallResult.ok⟩

/-- Environment where the first get_object call demands signature v4 and the
one on the fresh connection succeeds. -/
def envSigv4 : Env :=
  ⟨true, true, true, false, "e1", "e2", 0, false, 0, true, true, true,
    GetObjectResult.sigv4, GetObjectResult.ok, fun _ => true, ∅, fun _ => ∅,
    fun _ => CallResult.ok⟩

/-- Environment for create mode where the directory key already exists. -/
def envCreate : Env :=
  ⟨true, true, false, true, "e1", "e2", 0, false, 0, true, true, true,
    GetObjectResult.ok, GetObjectResult.ok, fun _ => true, ∅, fun _ => ∅,
    fun _ => CallResult.ok⟩

/-- Environment where the single upload attempt fails. -/
def envUploadFail : Env :=
  ⟨true, true, false, false, "e1", "e2", 0, false, 0, true, false, true,
    GetObjectResult.ok, GetObjectResult.ok, fun _ => true, ∅, fun _ => ∅, fun _ => CallResult.ok⟩

theorem tag_union_union_self (t c : TagDict) : t ∪ (t ∪ c) = t ∪ c := by
  apply Finmap.ext_lookup
  intro x
  by_cases hx : x ∈ t
  · rw [Finmap.lookup_union_left hx, Finmap.lookup_union_left hx]
  · rw [Finmap.lookup_union_right hx]

theorem tagTarget_idem (cur t : TagDict) (purge : Bool) :
    tagTarget (tagTarget cur t purge) t purge = tagTarget cur t purge := by
  cases purge <;> simp [tagTarget, tag_union_union_self]

theorem waitLoop_result_eq (obs : Nat → TagDict) (e : TagDict) :
    ∀ fuel i c, (waitLoop obs e i fuel).result = some c → c = e := by
  intro fuel
  induction fuel with
  | zero => intro i c h; simp [waitLoop] at h
  | succ n ih =>
    intro i c h
    by_cases hc : obs i = e
    · simp [waitLoop, hc] at h
      exact h.symm
    · simp [waitLoop, hc] at h
      exact ih (i + 1) c h

theorem waitLoop_succ_pos (obs : Nat → TagDict) (e : TagDict) (i n : Nat) (hc : obs i = e) :
    waitLoop obs e i (n + 1) = ⟨[obs i], 0, some (obs i)⟩ := by
  simp [waitLoop, hc]

theorem waitLoop_succ_neg (obs : Nat → TagDict) (e : TagDict) (i n : Nat) (hc : obs i ≠ e) :
    waitLoop obs e i (n + 1) =
      ⟨obs i :: (waitLoop obs e (i + 1) n).polls,
        tagPollDelay + (waitLoop obs e (i + 1) n).sleepSeconds,
        (waitLoop obs e (i + 1) n).result⟩ := by
  simp [waitLoop, hc]

theorem waitLoop_polls_length (obs : Nat → TagDict) (e : TagDict) :
    ∀ fuel i, (waitLoop obs e i fuel).polls.length ≤ fuel := by
  intro fuel
  induction fuel with
  | zero => intro i; simp [waitLoop]
  | succ n ih =>
    intro i
    by_cases hc : obs i = e
    · simp [waitLoop, hc]
    · simp [waitLoop, hc]
      exact ih (i + 1)

theorem waitLoop_result_none_iff (obs : Nat → TagDict) (e : TagDict) :
    ∀ fuel i, ((waitLoop obs e i fuel).result = none ↔ ∀ j, j < fuel → obs (i + j) ≠ e) := by
  intro fuel
  induction fuel with
  | zero => intro i; simp [waitLoop]
  | succ n ih =>
    intro i
    by_cases hc : obs i = e
    · rw [waitLoop_succ_pos obs e i n hc]
      simp only [reduceCtorEq, false_iff, not_forall]
      exact ⟨0, by omega, by simpa using hc⟩
    · rw [waitLoop_succ_neg obs e i n hc]
      simp only []
      rw [ih (i + 1)]
      constructor
      · intro H j hj
        cases j with
        | zero => simpa using hc
        | succ k =>
          have hik : i + (k + 1) = i + 1 + k := by omega
          rw [hik]
          exact H k (by omega)
      · intro H j hj
        have hik : i + 1 + j = i + (j + 1) := by omega
        rw [hik]
        exact H (j + 1) (by omega)

theorem waitLoop_sleep_of_none (obs : Nat → TagDict) (e : TagDict) :
    ∀ fuel i, (waitLoop obs e i fuel).result = none →
      (waitLoop obs e i fuel).sleepSeconds = tagPollDelay * fuel := by
  intro fuel
  induction fuel with
  | zero => intro i _; simp [waitLoop]
  | succ n ih =>
    intro i h
    by_cases hc : obs i = e
    · simp [waitLoop, hc] at h
    · simp only [waitLoop, if_neg hc] at h ⊢
      have := ih (i + 1) h
      simp only [this, tagPollDelay]
      ring

theorem tagWaitTail_mutation (key : String) (target : TagDict) (evs : List Event)
    (m : Option TagMutation) (obs : Nat → TagDict) :
    (tagWaitTail key target evs m obs).tagMutation = m := by
  simp only [tagWaitTail]
  rcases hw : (wait_tags_are_applied obs target).result with _ | c <;> simp only [hw]

theorem tagWaitTail_result_some (key : String) (target : TagDict) (evs : List Event)
    (m : Option TagMutation) (obs : Nat → TagDict) (c : TagDict) (ch : Bool)
    (h : (tagWaitTail key target evs m obs).result = Except.ok (c, ch)) :
    c = target ∧ ch = true := by
  simp only [tagWaitTail] at h
  rcases hw : (wait_tags_are_applied obs target).result with _ | c2
  · simp only [hw] at h
    exact Except.noConfusion h
  · simp only [hw] at h
    have hc2 : c2 = target := waitLoop_result_eq obs target tagPollAttempts 0 c2 hw
    simp only [Except.ok.injEq, Prod.mk.injEq] at h
    exact ⟨h.1.symm.trans hc2, h.2.symm⟩

theorem tagWaitTail_result_none (key : String) (target : TagDict) (evs : List Event)
    (m : Option TagMutation) (obs : Nat → TagDict)
    (hw : (wait_tags_are_applied obs target).result = none) :
    (tagWaitTail key target evs m obs).result = Except.error ErrKind.tagsNotApplied := by
  simp only [tagWaitTail, hw]

theorem ensure_tags_none (key : String) (current : TagDict) (purge : Bool)
    (obs : Nat → TagDict) (mutCall : Nat → CallResult) :
    ensure_tags key current none purge obs mutCall =
      ⟨[Event.getTagging key], none, Except.ok (current, false)⟩ := by
  simp [ensure_tags]

theorem ensure_tags_eq_current (key : String) (current t : TagDict) (purge : Bool)
    (obs : Nat → TagDict) (mutCall : Nat → CallResult)
    (h : current = tagTarget current t purge) :
    ensure_tags key current (some t) purge obs mutCall =
      ⟨[Event.getTagging key], none, Except.ok (current, false)⟩ := by
  simp [ensure_tags, if_pos h]

theorem ensure_tags_ne_put_ok (key : String) (current t : TagDict) (purge : Bool)
    (obs : Nat → TagDict) (mutCall : Nat → CallResult)
    (h : ¬ current = tagTarget current t purge)
    (hne : tagTarget current t purge ≠ ∅)
    (hok : (awsRetry mutCall).2 = CallResult.ok) :
    ensure_tags key current (some t) purge obs mutCall =
      tagWaitTail key (tagTarget current t purge)
        (Event.getTagging key :: (put_object_tagging key mutCall).1)
        (some (TagMutation.putTags (tagTarget current t purge))) obs := by
  simp [ensure_tags, h, hne, put_object_tagging, hok]

theorem ensure_tags_ne_put_fail (key : String) (current t : TagDict) (purge : Bool)
    (obs : Nat → TagDict) (mutCall : Nat → CallResult)
    (h : ¬ current = tagTarget current t purge)
    (hne : tagTarget current t purge ≠ ∅)
    (hfail : ¬ (awsRetry mutCall).2 = CallResult.ok) :
    ensure_tags key current (some t) purge obs mutCall =
      ⟨Event.getTagging key :: (put_object_tagging key mutCall).1,
        some (TagMutation.putTags (tagTarget current t purge)),
        Except.error ErrKind.tagsUpdateFailed⟩ := by
  simp [ensure_tags, h, hne, put_object_tagging, hfail]

theorem ensure_tags_ne_del_ok (key : String) (current t : TagDict) (purge : Bool)
    (obs : Nat → TagDict) (mutCall : Nat → CallResult)
    (h : ¬ current = tagTarget current t purge)
    (hemp : tagTarget current t purge = ∅) (hp : purge = true)
    (hok : (awsRetry mutCall).2 = CallResult.ok) :
    ensure_tags key current (some t) purge obs mutCall =
      tagWaitTail key (tagTarget current t purge)
        (Event.getTagging key :: (delete_object_tagging key mutCall).1)
        (some TagMutation.deleteTags) obs := by
  subst hp
  simp [ensure_tags, h, hemp, delete_object_tagging, hok]
  intro hc
  exact absurd (hc.trans hemp.symm) h

theorem ensure_tags_ne_del_fail (key : String) (current t : TagDict) (purge : Bool)
    (obs : Nat → TagDict) (mutCall : Nat → CallResult)
    (h : ¬ current = tagTarget current t purge)
    (hemp : tagTarget current t purge = ∅) (hp : purge = true)
    (hfail : ¬ (awsRetry mutCall).2 = CallResult.ok) :
    ensure_tags key current (some t) purge obs mutCall =
      ⟨Event.getTagging key :: (delete_object_tagging key mutCall).1,
        some TagMutation.deleteTags, Except.error ErrKind.tagsDeleteFailed⟩ := by
  subst hp
  simp [ensure_tags, h, hemp, delete_object_tagging, hfail]
  exact fun hc => h (hc.trans hemp.symm)

theorem ensure_tags_ne_nomut (key : String) (current t : TagDict) (purge : Bool)
    (obs : Nat → TagDict) (mutCall : Nat → CallResult)
    (h : ¬ current = tagTarget current t purge)
    (hemp : tagTarget current t purge = ∅) (hp : ¬ purge = true) :
    ensure_tags key current (some t) purge obs mutCall =
      tagWaitTail key (tagTarget current t purge) [Event.getTagging key] none obs := by
  simp only [Bool.not_eq_true] at hp
  subst hp
  simp [ensure_tags, h, hemp]
  intro hc
  exact absurd (hc.trans hemp.symm) h

theorem union_eq_empty_right (t c : TagDict) (h : t ∪ c = ∅) : c = ∅ := by
  apply Finmap.ext_lookup
  intro x
  rw [Finmap.lookup_empty, Finmap.lookup_eq_none]
  intro hx
  have hm : x ∈ t ∪ c := Finmap.mem_union.2 (Or.inr hx)
  rw [h] at hm
  exact Finmap.not_mem_empty hm

theorem ensure_tags_result_changed (key : String) (current t : TagDict) (purge : Bool)
    (obs : Nat → TagDict) (mutCall : Nat → CallResult) (c : TagDict) (ch : Bool)
    (hne : ¬ current = tagTarget current t purge)
    (h : (ensure_tags key current (some t) purge obs mutCall).result = Except.ok (c, ch)) :
    c = tagTarget current t purge ∧ ch = true := by
  by_cases h1 : tagTarget current t purge ≠ ∅
  · by_cases h2 : (awsRetry mutCall).2 = CallResult.ok
    · rw [ensure_tags_ne_put_ok key current t purge obs mutCall hne h1 h2] at h
      exact tagWaitTail_result_some _ _ _ _ _ _ _ h
    · rw [ensure_tags_ne_put_fail key current t purge obs mutCall hne h1 h2] at h
      exact Except.noConfusion h
  · have hemp : tagTarget current t purge = ∅ := not_not.mp h1
    by_cases hp : purge = true
    · by_cases h2 : (awsRetry mutCall).2 = CallResult.ok
      · rw [ensure_tags_ne_del_ok key current t purge obs mutCall hne hemp hp h2] at h
        exact tagWaitTail_result_some _ _ _ _ _ _ _ h
      · rw [ensure_tags_ne_del_fail key current t purge obs mutCall hne hemp hp h2] at h
        exact Except.noConfusion h
    · rw [ensure_tags_ne_nomut key current t purge obs mutCall hne hemp hp] at h
      exact tagWaitTail_result_some _ _ _ _ _ _ _ h

theorem ensure_tags_mutation_ne (key : String) (current t : TagDict) (purge : Bool)
    (obs : Nat → TagDict) (mutCall : Nat → CallResult)
    (h : ¬ current = tagTarget current t purge) :
    (ensure_tags key current (some t) purge obs mutCall).tagMutation =
      (if tagTarget current t purge ≠ ∅ then
        some (TagMutation.putTags (tagTarget current t purge))
      else if purge then some TagMutation.deleteTags
      else none) := by
  by_cases h1 : tagTarget current t purge ≠ ∅
  · rw [if_pos h1]
    by_cases h2 : (awsRetry mutCall).2 = CallResult.ok
    · rw [ensure_tags_ne_put_ok key current t purge obs mutCall h h1 h2, tagWaitTail_mutation]
    · rw [ensure_tags_ne_put_fail key current t purge obs mutCall h h1 h2]
  · have hemp : tagTarget current t purge = ∅ := not_not.mp h1
    rw [if_neg h1]
    by_cases hp : purge = true
    · rw [if_pos hp]
      by_cases h2 : (awsRetry mutCall).2 = CallResult.ok
      · rw [ensure_tags_ne_del_ok key current t purge obs mutCall h hemp hp h2,
          tagWaitTail_mutation]
      · rw [ensure_tags_ne_del_fail key current t purge obs mutCall h hemp hp h2]
    · rw [if_neg hp, ensure_tags_ne_nomut key current t purge obs mutCall h hemp hp,
        tagWaitTail_mutation]

/-- Claim C4: tag reconciliation is idempotent. When the computed target tag
set equals the currently observed tag set, ensure_tags issues no remote
mutation and reports changed false; and whenever a run of ensure_tags returns
a (tags, changed) result, running the same desired-tags/purge request again
against the resulting tag state issues no mutation and reports changed
false. -/
theorem c4_tag_reconciliation_idempotent (key key2 : String) (current : TagDict)
    (desired : Option TagDict) (purge : Bool) (obs obs2 : Nat → TagDict)
    (mutCall mutCall2 : Nat → CallResult) :
    (∀ t, desired = some t → tagTarget current t purge = current →
      (ensure_tags key current desired purge obs mutCall).tagMutation = none ∧
      (ensure_tags key current desired purge obs mutCall).result =
        Except.ok (current, false)) ∧
    (∀ c ch, (ensure_tags key current desired purge obs mutCall).result =
        Except.ok (c, ch) →
      (ensure_tags key2 c desired purge obs2 mutCall2).tagMutation = none ∧
      (ensure_tags key2 c desired purge obs2 mutCall2).result = Except.ok (c, false)) := by
  constructor
  · intro t ht htgt
    subst ht
    rw [ensure_tags_eq_current key current t purge obs mutCall htgt.symm]
    exact ⟨rfl, rfl⟩
  · intro c ch h
    cases desired with
    | none =>
      rw [ensure_tags_none key current purge obs mutCall] at h
      simp only [Except.ok.injEq, Prod.mk.injEq] at h
      rw [ensure_tags_none key2 c purge obs2 mutCall2]
      exact ⟨rfl, rfl⟩
    | some t =>
      by_cases heq : current = tagTarget current t purge
      · rw [ensure_tags_eq_current key current t purge obs mutCall heq] at h
        simp only [Except.ok.injEq, Prod.mk.injEq] at h
        obtain ⟨h1, _⟩ := h
        subst h1
        rw [ensure_tags_eq_current key2 current t purge obs2 mutCall2 heq]
        exact ⟨rfl, rfl⟩
      · obtain ⟨hc, _⟩ :=
          ensure_tags_result_changed key current t purge obs mutCall c ch heq h
        have hcond : c = tagTarget c t purge := by rw [hc, tagTarget_idem]
        rw [ensure_tags_eq_current key2 c t purge obs2 mutCall2 hcond]
        exact ⟨rfl, rfl⟩

theorem c4_witness :
    ((ensure_tags "k" sampleTagsA (some sampleTagsA) true (fun _ => ∅)
        (fun _ => CallResult.ok)).tagMutation = none ∧
      (ensure_tags "k" sampleTagsA (some sampleTagsA) true (fun _ => ∅)
        (fun _ => CallResult.ok)).result = Except.ok (sampleTagsA, false)) ∧
    ((ensure_tags "k2" sampleTagsA (some sampleTagsA) true (fun _ => ∅)
        (fun _ => CallResult.ok)).tagMutation = none ∧
      (ensure_tags "k2" sampleTagsA (some sampleTagsA) true (fun _ => ∅)
        (fun _ => CallResult.ok)).result = Except.ok (sampleTagsA, false)) :=
  ⟨(c4_tag_reconciliation_idempotent "k" "k2" sampleTagsA (some sampleTagsA) true
      (fun _ => ∅) (fun _ => ∅) (fun _ => CallResult.ok) (fun _ => CallResult.ok)).1
      sampleTagsA rfl (by decide),
   (c4_tag_reconciliation_idempotent "k" "k2" sampleTagsA (some sampleTagsA) true
      (fun _ => ∅) (fun _ => ∅) (fun _ => CallResult.ok) (fun _ => CallResult.ok)).2
      sampleTagsA false rfl⟩

/-- Claim C5: with purge false and a desired tag set supplied, the target tag
set computed and written by tag reconciliation contains every key of the
current set (keys absent from the desired set are never removed), the desired
value wins on keys present in both, untouched current values survive, and the
only mutation ensure_tags can issue in this configuration writes exactly that
merged target. -/
theorem c5_purge_false_merge (key : String) (current t : TagDict) (obs : Nat → TagDict)
    (mutCall : Nat → CallResult) :
    (∀ k, k ∈ current → k ∈ tagTarget current t false) ∧
    (∀ k, k ∈ t → (tagTarget current t false).lookup k = t.lookup k) ∧
    (∀ k, k ∉ t → (tagTarget current t false).lookup k = current.lookup k) ∧
    (∀ m, (ensure_tags key current (some t) false obs mutCall).tagMutation = some m →
      m = TagMutation.putTags (tagTarget current t false)) := by
  have htgt : tagTarget current t false = t ∪ current := by simp [tagTarget]
  refine ⟨?_, ?_, ?_, ?_⟩
  · intro k hk
    rw [htgt, Finmap.mem_union]
    exact Or.inr hk
  · intro k hk
    rw [htgt]
    exact Finmap.lookup_union_left hk
  · intro k hk
    rw [htgt]
    exact Finmap.lookup_union_right hk
  · intro m hm
    by_cases heq : current = tagTarget current t false
    · rw [ensure_tags_eq_current key current t false obs mutCall heq] at hm
      exact Option.noConfusion hm
    · rw [ensure_tags_mutation_ne key current t false obs mutCall heq] at hm
      by_cases hne : tagTarget current t false ≠ ∅
      · rw [if_pos hne] at hm
        exact (Option.some.injEq _ _ ▸ hm).symm
      · rw [if_neg hne] at hm
        simp only [Bool.false_eq_true, if_false] at hm
        exact Option.noConfusion hm

theorem c5_witness :
    ("env" ∈ sampleTagsAB ∧ "env" ∈ tagTarget sampleTagsAB sampleTagsB false) ∧
    ("owner" ∈ sampleTagsB ∧
      (tagTarget sampleTagsAB sampleTagsB false).lookup "owner" = sampleTagsB.lookup "owner") ∧
    ("env" ∉ sampleTagsB ∧
      (tagTarget sampleTagsAB sampleTagsB false).lookup "env" = sampleTagsAB.lookup "env") ∧
    ((ensure_tags "k" sampleTagsAB (some sampleTagsB) false (fun _ => ∅)
        (fun _ => CallResult.ok)).tagMutation =
        some (TagMutation.putTags (tagTarget sampleTagsAB sampleTagsB false)) ∧
      TagMutation.putTags (tagTarget sampleTagsAB sampleTagsB false) =
        TagMutation.putTags (tagTarget sampleTagsAB sampleTagsB false)) :=
  ⟨⟨by decide, (c5_purge_false_merge "k" sampleTagsAB sampleTagsB (fun _ => ∅)
      (fun _ => CallResult.ok)).1 "env" (by decide)⟩,
   ⟨by decide, (c5_purge_false_merge "k" sampleTagsAB sampleTagsB (fun _ => ∅)
      (fun _ => CallResult.ok)).2.1 "owner" (by decide)⟩,
   ⟨by decide, (c5_purge_false_merge "k" sampleTagsAB sampleTagsB (fun _ => ∅)
      (fun _ => CallResult.ok)).2.2.1 "env" (by decide)⟩,
   ⟨by decide, (c5_purge_false_merge "k" sampleTagsAB sampleTagsB (fun _ => ∅)
      (fun _ => CallResult.ok)).2.2.2
      (TagMutation.putTags (tagTarget sampleTagsAB sampleTagsB false)) (by decide) ▸ rfl⟩⟩

/-- Claim C6: after a tag mutation the remote tag set is polled a fixed bounded
number of times (tagPollAttempts) with a fixed delay (tagPollDelay) after each
miss; a poll that observes a match returns the observed tags (equal to the
target); if no poll within the budget matches, ensure_tags reports failure and
the invocation ends with the fatal tagsNotApplied error, distinct from the
transfer errors. The loop never runs more than its fixed budget. -/
theorem c6_tag_wait_bounded (obs : Nat → TagDict) (expected : TagDict) (key : String)
    (current t : TagDict) (purge : Bool) (mutCall : Nat → CallResult)
    (tr : List Event) (p : Params) (env : Env) :
    ((wait_tags_are_applied obs expected).polls.length ≤ tagPollAttempts) ∧
    ((wait_tags_are_applied obs expected).result = none ↔
      ∀ i, i < tagPollAttempts → obs i ≠ expected) ∧
    (∀ c, (wait_tags_are_applied obs expected).result = some c → c = expected) ∧
    ((wait_tags_are_applied obs expected).result = none →
      (wait_tags_are_applied obs expected).sleepSeconds = tagPollDelay * tagPollAttempts) ∧
    (¬ current = tagTarget current t purge →
      (awsRetry mutCall).2 = CallResult.ok →
      (∀ i, i < tagPollAttempts → obs i ≠ tagTarget current t purge) →
      (ensure_tags key current (some t) purge obs mutCall).result =
        Except.error ErrKind.tagsNotApplied) ∧
    ((ensure_tags key env.currentTags p.tags p.purgeTags env.tagObs env.tagCall).result =
        Except.error ErrKind.tagsNotApplied →
      env.uploadOk = true →
      (upload_path key tr p env).2 = Outcome.failed ErrKind.tagsNotApplied) ∧
    (ErrKind.tagsNotApplied ≠ ErrKind.downloadFailed ∧
      ErrKind.tagsNotApplied ≠ ErrKind.putFailed) := by
  refine ⟨waitLoop_polls_length obs expected tagPollAttempts 0, ?_, ?_, ?_, ?_, ?_, by decide⟩
  · have h := waitLoop_result_none_iff obs expected tagPollAttempts 0
    simpa [wait_tags_are_applied] using h
  · intro c h
    exact waitLoop_result_eq obs expected tagPollAttempts 0 c h
  · intro h
    exact waitLoop_sleep_of_none obs expected tagPollAttempts 0 h
  · intro hne hok hmiss
    have hwn : (wait_tags_are_applied obs (tagTarget current t purge)).result = none := by
      have h := waitLoop_result_none_iff obs (tagTarget current t purge) tagPollAttempts 0
      rw [wait_tags_are_applied, h]
      intro j hj
      simpa using hmiss j hj
    by_cases h1 : tagTarget current t purge ≠ ∅
    · rw [ensure_tags_ne_put_ok key current t purge obs mutCall hne h1 hok]
      exact tagWaitTail_result_none _ _ _ _ _ hwn
    · have hemp : tagTarget current t purge = ∅ := not_not.mp h1
      by_cases hp : purge = true
      · rw [ensure_tags_ne_del_ok key current t purge obs mutCall hne hemp hp hok]
        exact tagWaitTail_result_none _ _ _ _ _ hwn
      · rw [ensure_tags_ne_nomut key current t purge obs mutCall hne hemp hp]
        exact tagWaitTail_result_none _ _ _ _ _ hwn
  · intro hres hup
    simp only [upload_path, hup]
    rw [if_neg (by simp)]
    simp only [hres]

theorem c6_witness :
    ((wait_tags_are_applied (fun _ => ∅) sampleTagsA).result = none →
        (wait_tags_are_applied (fun _ => ∅) sampleTagsA).sleepSeconds =
          tagPollDelay * tagPollAttempts) ∧
    ((wait_tags_are_applied (fun _ => ∅) sampleTagsA).sleepSeconds =
        tagPollDelay * tagPollAttempts) ∧
    ((ensure_tags "k" ∅ (some sampleTagsA) true (fun _ => ∅)
        (fun _ => CallResult.ok)).result = Except.error ErrKind.tagsNotApplied) ∧
    ((upload_path "k" [] paramsTagsTimeout envTagsTimeout).2 =
        Outcome.failed ErrKind.tagsNotApplied) ∧
    (∀ c, (wait_tags_are_applied (fun _ => sampleTagsA) sampleTagsA).result = some c →
        c = sampleTagsA) ∧
    ((wait_tags_are_applied (fun _ => sampleTagsA) sampleTagsA).result = some sampleTagsA) := by
  refine ⟨?_, ?_, ?_, ?_, ?_, by decide⟩
  · exact (c6_tag_wait_bounded (fun _ => ∅) sampleTagsA "k" ∅ sampleTagsA true
      (fun _ => CallResult.ok) [] paramsTagsTimeout envTagsTimeout).2.2.2.1
  · exact (c6_tag_wait_bounded (fun _ => ∅) sampleTagsA "k" ∅ sampleTagsA true
      (fun _ => CallResult.ok) [] paramsTagsTimeout envTagsTimeout).2.2.2.1 (by decide)
  · exact (c6_tag_wait_bounded (fun _ => ∅) sampleTagsA "k" ∅ sampleTagsA true
      (fun _ => CallResult.ok) [] paramsTagsTimeout envTagsTimeout).2.2.2.2.1
      (by decide) (by decide) (by decide)
  · exact (c6_tag_wait_bounded (fun _ => ∅) sampleTagsA "k" ∅ sampleTagsA true
      (fun _ => CallResult.ok) [] paramsTagsTimeout envTagsTimeout).2.2.2.2.2.1
      rfl (by decide)
  · exact (c6_tag_wait_bounded (fun _ => sampleTagsA) sampleTagsA "k" ∅ sampleTagsA true
      (fun _ => CallResult.ok) [] paramsTagsTimeout envTagsTimeout).2.2.1

theorem downloadLoop_all_download (key : String) (aOk : Nat → Bool) :
    ∀ fuel x, ∀ e ∈ (downloadLoop key aOk x fuel).1, e = Event.downloadFile key := by
  intro fuel
  induction fuel with
  | zero => intro x e he; simp [downloadLoop] at he
  | succ n ih =>
    intro x e he
    by_cases ha : aOk x
    · simp [downloadLoop, ha] at he
      exact he
    · by_cases hn : n = 0
      · simp [downloadLoop, ha, hn] at he
        exact he
      · simp only [downloadLoop, if_neg ha, if_neg hn, List.mem_cons] at he
        rcases he with he | he
        · exact he
        · exact ih (x + 1) e he

theorem downloadLoop_length_le (key : String) (aOk : Nat → Bool) :
    ∀ fuel x, (downloadLoop key aOk x fuel).1.length ≤ fuel := by
  intro fuel
  induction fuel with
  | zero => intro x; simp [downloadLoop]
  | succ n ih =>
    intro x
    by_cases ha : aOk x
    · simp [downloadLoop, ha]
    · by_cases hn : n = 0
      · simp [downloadLoop, ha, hn]
      · simp only [downloadLoop, if_neg ha, if_neg hn, List.length_cons]
        exact Nat.succ_le_succ (ih (x + 1))

theorem downloadLoop_failed_iff (key : String) (aOk : Nat → Bool) :
    ∀ fuel x, fuel ≠ 0 →
      ((downloadLoop key aOk x fuel).2 = Outcome.failed ErrKind.downloadFailed ↔
        ∀ j, j < fuel → aOk (x + j) = false) := by
  intro fuel
  induction fuel with
  | zero => intro x h; exact absurd rfl h
  | succ n ih =>
    intro x _
    by_cases ha : aOk x
    · simp only [downloadLoop, if_pos ha]
      constructor
      · intro h; exact Outcome.noConfusion h
      · intro H
        have := H 0 (by omega)
        simp only [Nat.add_zero] at this
        rw [ha] at this
        exact Bool.noConfusion this
    · by_cases hn : n = 0
      · subst hn
        simp only [downloadLoop, if_neg ha, if_pos rfl, reduceIte]
        constructor
        · intro _ j hj
          have hj0 : j = 0 := by omega
          subst hj0
          simpa using ha
        · intro _; trivial
      · simp only [downloadLoop, if_neg ha, if_neg hn]
        rw [ih (x + 1) hn]
        constructor
        · intro H j hj
          cases j with
          | zero => simpa using ha
          | succ k =>
            have hik : x + (k + 1) = x + 1 + k := by omega
            rw [hik]
            exact H k (by omega)
        · intro H j hj
          have hik : x + 1 + j = x + (j + 1) := by omega
          rw [hik]
          exact H (j + 1) (by omega)

theorem downloadLoop_mem (key : String) (aOk : Nat → Bool) (x fuel : Nat) (h : fuel ≠ 0) :
    Event.downloadFile key ∈ (downloadLoop key aOk x fuel).1 := by
  cases fuel with
  | zero => exact absurd rfl h
  | succ n =>
    by_cases ha : aOk x
    · simp [downloadLoop, ha]
    · by_cases hn : n = 0
      · simp [downloadLoop, ha, hn]
      · simp [downloadLoop, ha, hn]

theorem downloadLoop_filter (key : String) (aOk : Nat → Bool) (fuel x : Nat) :
    (downloadLoop key aOk x fuel).1.filter notDownload = [] := by
  rw [List.filter_eq_nil_iff]
  intro e he
  rw [downloadLoop_all_download key aOk fuel x e he]
  simp [notDownload, isDownloadEvent]

theorem download_s3file_filter (key : String) (r : Nat) (getObj : GetObjectResult)
    (aOk : Nat → Bool) :
    (download_s3file key r getObj aOk).1.filter notDownload = [Event.getObjectCall key] := by
  cases getObj
  · simp only [download_s3file, List.filter_cons]
    rw [downloadLoop_filter key aOk (r + 1) 0]
    rfl
  · rfl
  · rfl

theorem download_with_sigv4_ok (key : String) (r : Nat) (env : Env)
    (h : env.getObj1 = GetObjectResult.ok) :
    download_with_sigv4 key r env =
      (Event.getObjectCall key :: (downloadLoop key env.downloadOk 0 (r + 1)).1,
        (downloadLoop key env.downloadOk 0 (r + 1)).2) := by
  simp [download_with_sigv4, download_s3file, h]

theorem download_with_sigv4_filter (key : String) (r : Nat) (env : Env) :
    (download_with_sigv4 key r env).1.filter notDownload =
      (match env.getObj1 with
        | GetObjectResult.sigv4 =>
          [Event.getObjectCall key, Event.connect, Event.getObjectCall key]
        | _ => [Event.getObjectCall key]) := by
  cases hg : env.getObj1 with
  | ok =>
    rw [download_with_sigv4_ok key r env hg]
    simp only [List.filter_cons]
    rw [downloadLoop_filter key env.downloadOk (r + 1) 0]
    rfl
  | notFound =>
    simp only [download_with_sigv4, download_s3file, hg]
    rfl
  | sigv4 =>
    simp only [download_with_sigv4, download_s3file, hg]
    cases hg2 : env.getObj2 <;> simp only [hg2]
    · simp only [List.filter_append, List.filter_cons]
      rw [downloadLoop_filter key env.downloadOk (r + 1) 0]
      rfl
    · rfl
    · rfl

theorem coerce_overwrite_latest : coerce_overwrite "latest" = Except.ok Overwrite.latest := rfl

theorem coerce_overwrite_different :
    coerce_overwrite "different" = Except.ok Overwrite.different := rfl

theorem main_validate_ok (p : Params) (hasMD5 : Bool) (ow : Overwrite)
    (hreq : requiredParamsOk p = true) (hb : p.bucketNameValid = true)
    (hco : coerce_overwrite p.overwrite = Except.ok ow)
    (hmd : ¬(ow = Overwrite.different ∧ hasMD5 = false))
    (hdel : p.mode ≠ Mode.delete) :
    main_validate p hasMD5 = Except.ok ow := by
  simp [main_validate, hreq, hb, hco, hmd, hdel]

theorem main_model_get_eq (p : Params) (r : Nat) (env : Env) (ow : Overwrite)
    (hm : p.mode = Mode.get) (hv : main_validate p env.hasMD5 = Except.ok ow)
    (hbe : env.bucketExists = true) :
    main_model p r env =
      ([Event.connect, Event.headBucket] ++
          (get_flow r env ow ((effectiveObj p.obj).getD "") (p.dest.getD "")).1,
        (get_flow r env ow ((effectiveObj p.obj).getD "") (p.dest.getD "")).2) := by
  simp [main_model, hv, hm, hbe]

theorem main_model_put_eq (p : Params) (r : Nat) (env : Env) (ow : Overwrite)
    (hm : p.mode = Mode.put) (hv : main_validate p env.hasMD5 = Except.ok ow) :
    main_model p r env =
      ([Event.connect, Event.headBucket] ++
          (put_flow p env ow ((effectiveObj p.obj).getD "")).1,
        (put_flow p env ow ((effectiveObj p.obj).getD "")).2) := by
  simp [main_model, hv, hm, modeNeedsBucket]

theorem get_flow_filter_retries (r1 r2 : Nat) (env : Env) (ow : Overwrite) (key dest : String) :
    (get_flow r1 env ow key dest).1.filter notDownload =
      (get_flow r2 env ow key dest).1.filter notDownload := by
  simp only [get_flow]
  split_ifs <;>
    first
      | rfl
      | simp only [List.filter_cons, download_with_sigv4_filter]

theorem main_model_filter_retries (p : Params) (env : Env) (r1 r2 : Nat) :
    (main_model p r1 env).1.filter notDownload = (main_model p r2 env).1.filter notDownload := by
  unfold main_model
  cases hv : main_validate p env.hasMD5 with
  | error e => rfl
  | ok ow =>
    by_cases hic : (p.ignoreNonexistentBucket = false ∧ modeNeedsBucket p.mode = true ∧
        env.bucketExists = false)
    · simp only [if_pos hic]
    · simp only [if_neg hic]
      cases hm : p.mode with
      | get =>
        simp only [List.filter_append]
        rw [get_flow_filter_retries r1 r2 env ow ((effectiveObj p.obj).getD "")
          (p.dest.getD "")]
      | put => rfl
      | delete => rfl
      | create => rfl
      | geturl => rfl
      | getstr => rfl
      | delobj => rfl
      | list => rfl
      | copy => rfl

/-- Auxiliary count lemmas for the retry analysis. -/
theorem downloadLoop_count_other (key : String) (aOk : Nat → Bool) (fuel x : Nat)
    (e : Event) (h : e ≠ Event.downloadFile key) :
    (downloadLoop key aOk x fuel).1.count e = 0 := by
  rw [List.count_eq_zero]
  intro hmem
  exact h (downloadLoop_all_download key aOk fuel x e hmem)

theorem awsRetryLoop_count_le (outcome : Nat → CallResult) :
    ∀ fuel i, (awsRetryLoop outcome i fuel).1 ≤ fuel := by
  intro fuel
  induction fuel with
  | zero => intro i; simp [awsRetryLoop]
  | succ n ih =>
    intro i
    cases ho : outcome i with
    | retryable =>
      by_cases hn : n = 0
      · simp [awsRetryLoop, ho, hn]
      · simp only [awsRetryLoop, ho, if_neg hn]
        exact Nat.succ_le_succ (ih (i + 1))
    | ok => simp [awsRetryLoop, ho]
    | fatal => simp [awsRetryLoop, ho]

theorem awsRetryLoop_retry_then_ok (outcome : Nat → CallResult) (i fuel : Nat)
    (h0 : outcome i = CallResult.retryable) (h1 : outcome (i + 1) = CallResult.ok)
    (hf : 2 ≤ fuel) :
    awsRetryLoop outcome i fuel = (2, CallResult.ok) := by
  obtain ⟨f, rfl⟩ : ∃ f, fuel = f + 2 := ⟨fuel - 2, by omega⟩
  simp [awsRetryLoop, h0, h1]

/-- Claim C7 counterexample: not every remote call outside the bulk download is
attempted exactly once with a fatal first failure. In a concrete PUT the
retry-wrapped put_object_tagging call fails once with a retryable error, is
attempted a second time, and the invocation succeeds; in a concrete GET the
get_object call demands signature v4 and is attempted a second time on a fresh
connection, and the invocation succeeds. -/
theorem c7_counterexample :
    ((main_model paramsPutTags 0 envTagRetry).1.count (Event.putTagging "k") = 2 ∧
      (main_model paramsPutTags 0 envTagRetry).2 = Outcome.exited MsgKind.putComplete true) ∧
    ((main_model paramsGetAlways 0 envSigv4).1.count (Event.getObjectCall "k") = 2 ∧
      (main_model paramsGetAlways 0 envSigv4).2 = Outcome.exited MsgKind.getComplete true) := by
  refine ⟨⟨?_, ?_⟩, ?_, ?_⟩ <;> decide

/-- Claim C7 amended: the caller-configurable retry budget wraps only the bulk
download step — the download is attempted at most retries + 1 times, a
download failure is reported exactly when every one of those attempts fails,
and the non-download events of a whole invocation trace do not depend on the
retry budget. A not-found get_object failure is fatal at once with no download
attempt, and an upload is a single attempt whose first failure is fatal. But
other remote calls are not all single-attempt: the tag mutation calls are
wrapped in a bounded jittered-backoff retry (up to awsRetryAttempts attempts;
a first retryable failure followed by a success means two attempts and no
fatal error), and a get_object call that demands signature v4 is re-attempted
once on a fresh connection. -/
theorem c7_retry_budget_download_only (key : String) (retries : Nat)
    (aOk : Nat → Bool) (outcome : Nat → CallResult) (p : Params) (env : Env)
    (r1 r2 : Nat) (tr : List Event) :
    ((download_s3file key retries env.getObj1 aOk).1.count (Event.downloadFile key) ≤
      retries + 1) ∧
    ((download_s3file key retries GetObjectResult.ok aOk).2 =
        Except.ok (Outcome.failed ErrKind.downloadFailed) ↔
      ∀ i, i ≤ retries → aOk i = false) ∧
    (download_s3file key retries GetObjectResult.notFound aOk =
      ([Event.getObjectCall key], Except.ok (Outcome.failed ErrKind.getObjectFailed))) ∧
    ((main_model p r1 env).1.filter notDownload = (main_model p r2 env).1.filter notDownload) ∧
    (env.uploadOk = false →
      (upload_path key tr p env).1.count (Event.uploadFile key) =
          tr.count (Event.uploadFile key) + 1 ∧
      (upload_path key tr p env).2 = Outcome.failed ErrKind.putFailed) ∧
    ((awsRetry outcome).1 ≤ awsRetryAttempts) ∧
    (outcome 0 = CallResult.retryable → outcome 1 = CallResult.ok →
      put_object_tagging key outcome =
        ([Event.putTagging key, Event.putTagging key], CallResult.ok)) ∧
    (env.getObj1 = GetObjectResult.sigv4 →
      (download_with_sigv4 key retries env).1.count (Event.getObjectCall key) = 2) := by
  refine ⟨?_, ?_, rfl, main_model_filter_retries p env r1 r2, ?_, ?_, ?_, ?_⟩
  · cases env.getObj1
    · simp only [download_s3file]
      rw [List.count_cons_of_ne (by simp)]
      exact le_trans (List.count_le_length _ _) (downloadLoop_length_le key aOk (retries + 1) 0)
    · simp [download_s3file]
    · simp [download_s3file]
  · simp only [download_s3file, Except.ok.injEq]
    rw [downloadLoop_failed_iff key aOk (retries + 1) 0 (by omega)]
    constructor
    · intro H i hi
      have := H i (by omega)
      simpa using this
    · intro H j hj
      simpa using H j (by omega)
  · intro hu
    constructor
    · simp only [upload_path, if_pos hu]
      rw [List.count_append]
      simp
    · simp only [upload_path, if_pos hu]
  · exact awsRetryLoop_count_le outcome awsRetryAttempts 0
  · intro h0 h1
    have hloop : awsRetry outcome = (2, CallResult.ok) := by
      rw [awsRetry]
      exact awsRetryLoop_retry_then_ok outcome 0 awsRetryAttempts h0 (by simpa using h1)
        (by decide)
    simp [put_object_tagging, hloop]
  · intro hs
    simp only [download_with_sigv4, download_s3file, hs]
    cases hg2 : env.getObj2 <;> simp only [hg2]
    · have hz := downloadLoop_count_other key env.downloadOk (retries + 1) 0
        (Event.getObjectCall key) (by simp)
      simp [List.count_append, List.count_cons, hz]
    · simp [List.count_append, List.count_cons]
    · simp [List.count_append, List.count_cons]

theorem c7_witness :
    ((download_s3file "k" 2 GetObjectResult.ok (fun _ => false)).2 =
      Except.ok (Outcome.failed ErrKind.downloadFailed)) ∧
    ((main_model paramsGetLatest 1 envGetOld).1.filter notDownload =
      (main_model paramsGetLatest 5 envGetOld).1.filter notDownload) ∧
    ((upload_path "k" [] paramsPutLatest envUploadFail).2 = Outcome.failed ErrKind.putFailed) ∧
    (put_object_tagging "k" (fun i => if i = 0 then CallResult.retryable else CallResult.ok) =
      ([Event.putTagging "k", Event.putTagging "k"], CallResult.ok)) ∧
    ((download_with_sigv4 "k" 0 envSigv4).1.count (Event.getObjectCall "k") = 2) :=
  ⟨(c7_retry_budget_download_only "k" 2 (fun _ => false) (fun _ => CallResult.ok)
      paramsGetLatest envGetOld 1 5 []).2.1.mpr (fun _ _ => rfl),
   (c7_retry_budget_download_only "k" 2 (fun _ => false) (fun _ => CallResult.ok)
      paramsGetLatest envGetOld 1 5 []).2.2.2.1,
   ((c7_retry_budget_download_only "k" 2 (fun _ => false) (fun _ => CallResult.ok)
      paramsPutLatest envUploadFail 1 5 []).2.2.2.2.1 rfl).2,
   (c7_retry_budget_download_only "k" 2 (fun _ => false)
      (fun i => if i = 0 then CallResult.retryable else CallResult.ok)
      paramsPutLatest envUploadFail 1 5 []).2.2.2.2.2.2.1 rfl rfl,
   (c7_retry_budget_download_only "k" 0 (fun _ => false) (fun _ => CallResult.ok)
      paramsGetAlways envSigv4 1 5 []).2.2.2.2.2.2.2 rfl⟩

/-- Claim C2: with overwrite=different, an existing remote object and an
existing local reference, an equal locally computed fingerprint and remote ETag
skip the transfer and report no content change, while differing fingerprints
let the transfer proceed — both for GET (local file at dest) and for PUT (src
file or inline content). -/
theorem c2_different_policy_decision (p : Params) (env : Env)
    (ho : p.overwrite = "different") (hreq : requiredParamsOk p = true)
    (hb : p.bucketNameValid = true) (hmd5 : env.hasMD5 = true)
    (hbe : env.bucketExists = true) (hke : env.keyExists = true)
    (htags : p.tags = none) :
    (∀ r d, p.mode = Mode.get → p.dest = some d → d ≠ "" → env.destExists = true →
      ((etag_compare env.remoteEtag env.localEtag = true →
        (main_model p r env).2 = Outcome.exited MsgKind.getSkippedIdentical false ∧
        ∀ k, Event.downloadFile k ∉ (main_model p r env).1) ∧
       (etag_compare env.remoteEtag env.localEtag = false →
        env.getObj1 = GetObjectResult.ok →
        Event.downloadFile ((effectiveObj p.obj).getD "") ∈ (main_model p r env).1))) ∧
    (∀ r, p.mode = Mode.put →
      (p.content ≠ none ∨ p.contentBase64 ≠ none ∨ p.src ≠ none) →
      (p.src ≠ none → env.srcExists = true) →
      ((etag_compare env.remoteEtag env.localEtag = true →
        (main_model p r env).2 = Outcome.exited MsgKind.putSkippedExisting false ∧
        ∀ k, Event.uploadFile k ∉ (main_model p r env).1) ∧
       (etag_compare env.remoteEtag env.localEtag = false → env.uploadOk = true →
        (main_model p r env).2 = Outcome.exited MsgKind.putComplete true ∧
        Event.uploadFile ((effectiveObj p.obj).getD "") ∈ (main_model p r env).1))) := by
  constructor
  · intro r d hm hd hdne hde
    have hv := main_validate_ok p env.hasMD5 Overwrite.different hreq hb
      (by rw [ho]; exact coerce_overwrite_different) (by simp [hmd5]) (by simp [hm])
    have hmm := main_model_get_eq p r env Overwrite.different hm hv hbe
    constructor
    · intro hmatch
      have hflow : get_flow r env Overwrite.different ((effectiveObj p.obj).getD "")
          (p.dest.getD "") =
          ([Event.headObject ((effectiveObj p.obj).getD ""),
            Event.headObject ((effectiveObj p.obj).getD "")],
            Outcome.exited MsgKind.getSkippedIdentical false) := by
        simp [get_flow, hke, hd, hdne, hde, hmatch]
      rw [hmm, hflow]
      refine ⟨rfl, ?_⟩
      intro k
      simp
    · intro hmatch hgok
      have hflow : get_flow r env Overwrite.different ((effectiveObj p.obj).getD "")
          (p.dest.getD "") =
          (Event.headObject ((effectiveObj p.obj).getD "") ::
            Event.headObject ((effectiveObj p.obj).getD "") ::
            (download_with_sigv4 ((effectiveObj p.obj).getD "") r env).1,
            (download_with_sigv4 ((effectiveObj p.obj).getD "") r env).2) := by
        simp [get_flow, hke, hd, hdne, hde, hmatch]
      rw [hmm, hflow, download_with_sigv4_ok _ r env hgok]
      simp
      exact downloadLoop_mem _ env.downloadOk 0 (r + 1) (by omega)
  · intro r hm hsome hsrcex
    have hv := main_validate_ok p env.hasMD5 Overwrite.different hreq hb
      (by rw [ho]; exact coerce_overwrite_different) (by simp [hmd5]) (by simp [hm])
    have hmm := main_model_put_eq p r env Overwrite.different hm hv
    have h1 : ¬(p.content = none ∧ p.contentBase64 = none ∧ p.src = none) := by
      rcases hsome with h | h | h <;> intro hc <;> [exact h hc.1; exact h hc.2.1; exact h hc.2.2]
    have h2 : ¬(p.src ≠ none ∧ env.srcExists = false) := by
      rintro ⟨hs, hf⟩
      rw [hsrcex hs] at hf
      exact Bool.noConfusion hf
    constructor
    · intro hmatch
      have hflow : put_flow p env Overwrite.different ((effectiveObj p.obj).getD "") =
          put_skip_path ((effectiveObj p.obj).getD "")
            [Event.headObject ((effectiveObj p.obj).getD ""),
              Event.headObject ((effectiveObj p.obj).getD "")] p env := by
        simp [put_flow, h1, h2, hbe, hke, hmatch]
      have hskip : put_skip_path ((effectiveObj p.obj).getD "")
          [Event.headObject ((effectiveObj p.obj).getD ""),
            Event.headObject ((effectiveObj p.obj).getD "")] p env =
          ([Event.headObject ((effectiveObj p.obj).getD ""),
            Event.headObject ((effectiveObj p.obj).getD ""),
            Event.getTagging ((effectiveObj p.obj).getD ""),
            Event.presignUrl ((effectiveObj p.obj).getD "")],
            Outcome.exited MsgKind.putSkippedExisting false) := by
        simp [put_skip_path, htags, ensure_tags]
      rw [hmm, hflow, hskip]
      refine ⟨rfl, ?_⟩
      intro k
      simp
    · intro hmatch hup
      have hflow : put_flow p env Overwrite.different ((effectiveObj p.obj).getD "") =
          upload_path ((effectiveObj p.obj).getD "")
            [Event.headObject ((effectiveObj p.obj).getD ""),
              Event.headObject ((effectiveObj p.obj).getD "")] p env := by
        simp [put_flow, h1, h2, hbe, hke, hmatch]
      have hupl : upload_path ((effectiveObj p.obj).getD "")
          [Event.headObject ((effectiveObj p.obj).getD ""),
            Event.headObject ((effectiveObj p.obj).getD "")] p env =
          ([Event.headObject ((effectiveObj p.obj).getD ""),
            Event.headObject ((effectiveObj p.obj).getD "")] ++
            Event.uploadFile ((effectiveObj p.obj).getD "") ::
            [Event.getTagging ((effectiveObj p.obj).getD "")] ++
            [Event.presignUrl ((effectiveObj p.obj).getD "")],
            Outcome.exited MsgKind.putComplete true) := by
        simp [upload_path, hup, htags, ensure_tags]
      rw [hmm, hflow, hupl]
      refine ⟨rfl, ?_⟩
      simp

theorem c2_witness :
    ((main_model paramsGetDifferent 0 envGetMatch).2 =
      Outcome.exited MsgKind.getSkippedIdentical false) ∧
    ((main_model paramsPutDifferent 0 envPutDiff).2 = Outcome.exited MsgKind.putComplete true ∧
      Event.uploadFile "k" ∈ (main_model paramsPutDifferent 0 envPutDiff).1) ∧
    ((main_model paramsPutDifferent 0 envPutMatch).2 =
      Outcome.exited MsgKind.putSkippedExisting false) := by
  refine ⟨?_, ?_, ?_⟩
  · exact (((c2_different_policy_decision paramsGetDifferent envGetMatch rfl (by decide) rfl rfl
      rfl rfl rfl).1 0 "d" rfl rfl (by decide) rfl).1 (by decide)).1
  · exact ((c2_different_policy_decision paramsPutDifferent envPutDiff rfl (by decide) rfl rfl
      rfl rfl rfl).2 0 rfl (Or.inr (Or.inr (by decide))) (fun _ => rfl)).2 (by decide) rfl
  · exact (((c2_different_policy_decision paramsPutDifferent envPutMatch rfl (by decide) rfl rfl
      rfl rfl rfl).2 0 rfl (Or.inr (Or.inr (by decide))) (fun _ => rfl)).1 (by decide)).1

/-- Claim C3: for a GET with overwrite=latest and an existing local destination
file, a local modification time greater than or equal to the remote
LastModified timestamp skips the download and reports unchanged, while a
strictly older local file lets the download proceed. -/
theorem c3_get_latest_decision (p : Params) (env : Env) (d : String)
    (hm : p.mode = Mode.get) (ho : p.overwrite = "latest")
    (hreq : requiredParamsOk p = true) (hb : p.bucketNameValid = true)
    (hbe : env.bucketExists = true) (hke : env.keyExists = true)
    (hd : p.dest = some d) (hdne : d ≠ "") (hde : env.destExists = true) :
    (∀ r, env.remoteLastModified ≤ env.destMtime →
      (main_model p r env).2 = Outcome.exited MsgKind.getSkippedLatest false ∧
      ∀ k, Event.downloadFile k ∉ (main_model p r env).1) ∧
    (∀ r, env.destMtime < env.remoteLastModified →
      env.getObj1 = GetObjectResult.ok →
      Event.downloadFile ((effectiveObj p.obj).getD "") ∈ (main_model p r env).1) := by
  have hv := main_validate_ok p env.hasMD5 Overwrite.latest hreq hb
    (by rw [ho]; exact coerce_overwrite_latest) (by simp) (by simp [hm])
  constructor
  · intro r hle
    have hmm := main_model_get_eq p r env Overwrite.latest hm hv hbe
    have hlatest :
        is_local_object_latest env.remoteLastModified true env.destMtime = true := by
      simp [is_local_object_latest, hle]
    have hflow : get_flow r env Overwrite.latest ((effectiveObj p.obj).getD "")
        (p.dest.getD "") =
        ([Event.headObject ((effectiveObj p.obj).getD ""),
          Event.headObject ((effectiveObj p.obj).getD "")],
          Outcome.exited MsgKind.getSkippedLatest false) := by
      simp [get_flow, hke, hd, hdne, hde, hlatest]
    rw [hmm, hflow]
    refine ⟨rfl, ?_⟩
    intro k
    simp
  · intro r hlt hgok
    have hmm := main_model_get_eq p r env Overwrite.latest hm hv hbe
    have hlatest :
        is_local_object_latest env.remoteLastModified true env.destMtime = false := by
      simp [is_local_object_latest]
      omega
    have hflow : get_flow r env Overwrite.latest ((effectiveObj p.obj).getD "")
        (p.dest.getD "") =
        (Event.headObject ((effectiveObj p.obj).getD "") ::
          Event.headObject ((effectiveObj p.obj).getD "") ::
          (download_with_sigv4 ((effectiveObj p.obj).getD "") r env).1,
          (download_with_sigv4 ((effectiveObj p.obj).getD "") r env).2) := by
      simp [get_flow, hke, hd, hdne, hde, hlatest]
    rw [hmm, hflow, download_with_sigv4_ok _ r env hgok]
    simp
    exact downloadLoop_mem _ env.downloadOk 0 (r + 1) (by omega)

theorem c3_witness :
    ((main_model paramsGetLatest 0 envGetNew).2 =
      Outcome.exited MsgKind.getSkippedLatest false) ∧
    (Event.downloadFile "k" ∈ (main_model paramsGetLatest 0 envGetOld).1) :=
  ⟨((c3_get_latest_decision paramsGetLatest envGetNew "d" rfl rfl (by decide) rfl rfl rfl rfl
      (by decide) rfl).1 0 (by decide)).1,
   (c3_get_latest_decision paramsGetLatest envGetOld "d" rfl rfl (by decide) rfl rfl rfl rfl
      (by decide) rfl).2 0 (by decide) rfl⟩

theorem keyOnly_nil (key : String) : keyOnly key [] := by
  intro e he
  simp at he

theorem keyOnly_append {key : String} {l1 l2 : List Event} (h1 : keyOnly key l1)
    (h2 : keyOnly key l2) : keyOnly key (l1 ++ l2) := by
  intro e he
  rcases List.mem_append.1 he with h | h
  · exact h1 e h
  · exact h2 e h

theorem keyOnly_cons {key : String} {e0 : Event} {l : List Event}
    (h0 : eventKey e0 = none ∨ eventKey e0 = some key) (h : keyOnly key l) :
    keyOnly key (e0 :: l) := by
  intro e he
  rcases List.mem_cons.1 he with h1 | h1
  · subst h1
    exact h0
  · exact h e h1

theorem keyOnly_one_head (key : String) : keyOnly key [Event.headObject key] := by
  intro e he
  simp at he
  subst he
  exact Or.inr rfl

theorem keyOnly_two_head (key : String) :
    keyOnly key [Event.headObject key, Event.headObject key] := by
  intro e he
  simp at he
  subst he
  exact Or.inr rfl

theorem keyOnly_createBucket (key : String) : keyOnly key [Event.createBucket] := by
  intro e he
  simp at he
  subst he
  exact Or.inl rfl

theorem keyOnly_downloadLoop (key : String) (aOk : Nat → Bool) (fuel x : Nat) :
    keyOnly key (downloadLoop key aOk x fuel).1 := by
  intro e he
  rw [downloadLoop_all_download key aOk fuel x e he]
  exact Or.inr rfl

theorem keyOnly_download_s3file (key : String) (r : Nat) (getObj : GetObjectResult)
    (aOk : Nat → Bool) :
    keyOnly key (download_s3file key r getObj aOk).1 := by
  cases getObj
  · exact keyOnly_cons (Or.inr rfl) (keyOnly_downloadLoop key aOk (r + 1) 0)
  · exact keyOnly_cons (Or.inr rfl) (keyOnly_nil key)
  · exact keyOnly_cons (Or.inr rfl) (keyOnly_nil key)

theorem keyOnly_download_with_sigv4 (key : String) (r : Nat) (env : Env) :
    keyOnly key (download_with_sigv4 key r env).1 := by
  simp only [download_with_sigv4]
  rcases h1 : (download_s3file key r env.getObj1 env.downloadOk).2 with u | o <;>
    simp only [h1]
  · rcases h2 : (download_s3file key r env.getObj2 env.downloadOk).2 with u2 | o2 <;>
      simp only [h2] <;>
      exact keyOnly_append (keyOnly_download_s3file key r env.getObj1 env.downloadOk)
        (keyOnly_cons (Or.inl rfl) (keyOnly_download_s3file key r env.getObj2 env.downloadOk))
  · exact keyOnly_download_s3file key r env.getObj1 env.downloadOk

theorem keyOnly_polls (key : String) (l : List TagDict) :
    keyOnly key (l.map (fun _ => Event.getTagging key)) := by
  intro e he
  rcases List.mem_map.1 he with ⟨a, _, h⟩
  subst h
  exact Or.inr rfl

theorem keyOnly_replicate (key : String) (n : Nat) (e0 : Event)
    (h : eventKey e0 = none ∨ eventKey e0 = some key) :
    keyOnly key (List.replicate n e0) := by
  intro e he
  rw [List.eq_of_mem_replicate he]
  exact h

theorem keyOnly_tagWaitTail (key : String) (target : TagDict) (evs : List Event)
    (m : Option TagMutation) (obs : Nat → TagDict) (hevs : keyOnly key evs) :
    keyOnly key (tagWaitTail key target evs m obs).events := by
  simp only [tagWaitTail]
  rcases hw : (wait_tags_are_applied obs target).result with _ | c <;> simp only [hw] <;>
    exact keyOnly_append hevs (keyOnly_polls key _)

theorem keyOnly_ensure_tags (key : String) (current : TagDict) (desired : Option TagDict)
    (purge : Bool) (obs : Nat → TagDict) (mutCall : Nat → CallResult) :
    keyOnly key (ensure_tags key current desired purge obs mutCall).events := by
  cases desired with
  | none =>
    rw [ensure_tags_none]
    exact keyOnly_cons (Or.inr rfl) (keyOnly_nil key)
  | some t =>
    by_cases heq : current = tagTarget current t purge
    · rw [ensure_tags_eq_current key current t purge obs mutCall heq]
      exact keyOnly_cons (Or.inr rfl) (keyOnly_nil key)
    · by_cases h1 : tagTarget current t purge ≠ ∅
      · by_cases h2 : (awsRetry mutCall).2 = CallResult.ok
        · rw [ensure_tags_ne_put_ok key current t purge obs mutCall heq h1 h2]
          exact keyOnly_tagWaitTail key _ _ _ obs
            (keyOnly_cons (Or.inr rfl)
              (keyOnly_replicate key _ (Event.putTagging key) (Or.inr rfl)))
        · rw [ensure_tags_ne_put_fail key current t purge obs mutCall heq h1 h2]
          exact keyOnly_cons (Or.inr rfl)
            (keyOnly_replicate key _ (Event.putTagging key) (Or.inr rfl))
      · have hemp : tagTarget current t purge = ∅ := not_not.mp h1
        by_cases hp : purge = true
        · by_cases h2 : (awsRetry mutCall).2 = CallResult.ok
          · rw [ensure_tags_ne_del_ok key current t purge obs mutCall heq hemp hp h2]
            exact keyOnly_tagWaitTail key _ _ _ obs
              (keyOnly_cons (Or.inr rfl)
                (keyOnly_replicate key _ (Event.deleteTagging key) (Or.inr rfl)))
          · rw [ensure_tags_ne_del_fail key current t purge obs mutCall heq hemp hp h2]
            exact keyOnly_cons (Or.inr rfl)
              (keyOnly_replicate key _ (Event.deleteTagging key) (Or.inr rfl))
        · rw [ensure_tags_ne_nomut key current t purge obs mutCall heq hemp hp]
          exact keyOnly_tagWaitTail key _ _ _ obs
            (keyOnly_cons (Or.inr rfl) (keyOnly_nil key))

theorem keyOnly_put_skip_path (key : String) (t : List Event) (p : Params) (env : Env)
    (ht : keyOnly key t) : keyOnly key (put_skip_path key t p env).1 := by
  simp only [put_skip_path]
  rcases hr : (ensure_tags key env.currentTags p.tags p.purgeTags env.tagObs
      env.tagCall).result with e0 | ⟨c0, ch⟩ <;> simp only [hr]
  · exact keyOnly_append ht
      (keyOnly_ensure_tags key env.currentTags p.tags p.purgeTags env.tagObs env.tagCall)
  · exact keyOnly_append
      (keyOnly_append ht
        (keyOnly_ensure_tags key env.currentTags p.tags p.purgeTags env.tagObs env.tagCall))
      (keyOnly_cons (Or.inr rfl) (keyOnly_nil key))

theorem keyOnly_upload_path (key : String) (t : List Event) (p : Params) (env : Env)
    (ht : keyOnly key t) : keyOnly key (upload_path key t p env).1 := by
  simp only [upload_path]
  by_cases hu : env.uploadOk = false
  · simp only [if_pos hu]
    exact keyOnly_append ht (keyOnly_cons (Or.inr rfl) (keyOnly_nil key))
  · simp only [if_neg hu]
    rcases hr : (ensure_tags key env.currentTags p.tags p.purgeTags env.tagObs
        env.tagCall).result with e0 | ⟨c0, ch⟩ <;> simp only [hr]
    · exact keyOnly_append ht
        (keyOnly_cons (Or.inr rfl)
          (keyOnly_ensure_tags key env.currentTags p.tags p.purgeTags env.tagObs env.tagCall))
    · exact keyOnly_append
        (keyOnly_append ht
          (keyOnly_cons (Or.inr rfl)
            (keyOnly_ensure_tags key env.currentTags p.tags p.purgeTags env.tagObs
              env.tagCall)))
        (keyOnly_cons (Or.inr rfl) (keyOnly_nil key))

theorem keyOnly_put_flow (p : Params) (env : Env) (ow : Overwrite) (key : String) :
    keyOnly key (put_flow p env ow key).1 := by
  simp only [put_flow]
  split_ifs <;>
    first
      | exact keyOnly_nil key
      | exact keyOnly_put_skip_path key _ p env (keyOnly_one_head key)
      | exact keyOnly_put_skip_path key _ p env (keyOnly_two_head key)
      | exact keyOnly_upload_path key _ p env (keyOnly_one_head key)
      | exact keyOnly_upload_path key _ p env (keyOnly_two_head key)
      | exact keyOnly_upload_path key _ p env (keyOnly_createBucket key)

theorem keyOnly_get_flow (r : Nat) (env : Env) (ow : Overwrite) (key dest : String) :
    keyOnly key (get_flow r env ow key dest).1 := by
  simp only [get_flow]
  split_ifs <;>
    first
      | exact keyOnly_one_head key
      | exact keyOnly_two_head key
      | exact keyOnly_cons (Or.inr rfl) (keyOnly_download_with_sigv4 key r env)
      | exact keyOnly_cons (Or.inr rfl)
          (keyOnly_cons (Or.inr rfl) (keyOnly_download_with_sigv4 key r env))

theorem keyOnly_create_dirkey_flow (key : String) (p : Params) (env : Env) :
    keyOnly key (create_dirkey_flow key p env).1 := by
  simp only [create_dirkey_flow]
  by_cases hpo : env.putObjectOk = false
  · simp only [if_pos hpo]
    intro e he
    simp at he
    subst he
    exact Or.inr rfl
  · simp only [if_neg hpo]
    rcases hr : (ensure_tags key env.currentTags p.tags p.purgeTags env.tagObs
        env.tagCall).result with e0 | o0 <;> simp only [hr]
    · exact keyOnly_cons (Or.inr rfl)
        (keyOnly_ensure_tags key env.currentTags p.tags p.purgeTags env.tagObs env.tagCall)
    · exact keyOnly_cons (Or.inr rfl)
        (keyOnly_append
          (keyOnly_ensure_tags key env.currentTags p.tags p.purgeTags env.tagObs env.tagCall)
          (keyOnly_cons (Or.inr rfl) (keyOnly_cons (Or.inr rfl) (keyOnly_nil key))))

theorem keyOnly_create_flow (p : Params) (env : Env) (keyOpt : Option String) :
    keyOnly (dirObj (keyOpt.getD "")) (create_flow p env keyOpt).1 := by
  simp only [create_flow]
  split_ifs <;>
    first
      | exact keyOnly_nil _
      | exact keyOnly_createBucket _
      | exact keyOnly_one_head _
      | exact keyOnly_cons (Or.inr rfl) (keyOnly_create_dirkey_flow _ p env)
      | exact keyOnly_cons (Or.inl rfl) (keyOnly_create_dirkey_flow _ p env)

theorem keyOnly_t0 (key : String) : keyOnly key [Event.connect, Event.headBucket] := by
  intro e he
  simp at he
  rcases he with h | h <;> subst h <;> exact Or.inl rfl

theorem keyOnly_main (p : Params) (r : Nat) (env : Env) (hm : p.mode ≠ Mode.create) :
    keyOnly ((effectiveObj p.obj).getD "") (main_model p r env).1 := by
  unfold main_model
  cases hv : main_validate p env.hasMD5 with
  | error e => exact keyOnly_nil _
  | ok ow =>
    by_cases hic : (p.ignoreNonexistentBucket = false ∧ modeNeedsBucket p.mode = true ∧
        env.bucketExists = false)
    · simp only [if_pos hic]
      exact keyOnly_t0 _
    · simp only [if_neg hic]
      cases hmm : p.mode with
      | get =>
        exact keyOnly_append (keyOnly_t0 _)
          (keyOnly_get_flow r env ow ((effectiveObj p.obj).getD "") (p.dest.getD ""))
      | put => exact keyOnly_append (keyOnly_t0 _) (keyOnly_put_flow p env ow _)
      | delete => exact keyOnly_t0 _
      | create => exact absurd hmm hm
      | geturl => exact keyOnly_t0 _
      | getstr => exact keyOnly_t0 _
      | delobj => exact keyOnly_t0 _
      | list => exact keyOnly_t0 _
      | copy => exact keyOnly_t0 _

theorem keyOnly_main_create (p : Params) (r : Nat) (env : Env) (hm : p.mode = Mode.create) :
    keyOnly (dirObj ((effectiveObj p.obj).getD "")) (main_model p r env).1 := by
  unfold main_model
  cases hv : main_validate p env.hasMD5 with
  | error e => exact keyOnly_nil _
  | ok ow =>
    by_cases hic : (p.ignoreNonexistentBucket = false ∧ modeNeedsBucket p.mode = true ∧
        env.bucketExists = false)
    · simp only [if_pos hic]
      exact keyOnly_t0 _
    · simp only [if_neg hic]
      rw [hm]
      exact keyOnly_append (keyOnly_t0 _) (keyOnly_create_flow p env (effectiveObj p.obj))

/-- Claim C9 counterexample: in create mode the remote object operations do
not use the stripped key unchanged; with object key "/d" the stripped key is
"d", yet the head-object call of the invocation targets the directory key
"d/" and no event of the trace carries the key "d". -/
theorem c9_counterexample :
    effectiveObj paramsCreateDir.obj = some "d" ∧
    Event.headObject "d/" ∈ (main_model paramsCreateDir 0 envCreate).1 ∧
    ∀ e ∈ (main_model paramsCreateDir 0 envCreate).1, eventKey e ≠ some "d" := by
  refine ⟨by decide, by decide, by decide⟩

/-- Claim C9 (corrected): a supplied object key beginning with a slash has
exactly that leading character stripped and a key not beginning with a slash
is used unchanged; in every mode other than create, every key-bearing remote
call in the invocation trace uses the resulting effective key, while in
create mode every key-bearing remote call uses the directory key — the
effective key with a trailing slash appended when not already present. -/
theorem c9_object_key_slash (p : Params) (r : Nat) (env : Env) (k : String) :
    (beginsWithSlash k = true → effectiveObj (some k) = some (k.drop 1)) ∧
    (beginsWithSlash k = false → effectiveObj (some k) = some k) ∧
    (p.mode ≠ Mode.create →
      keyOnly ((effectiveObj p.obj).getD "") (main_model p r env).1) ∧
    (p.mode = Mode.create →
      keyOnly (dirObj ((effectiveObj p.obj).getD "")) (main_model p r env).1) := by
  refine ⟨?_, ?_, keyOnly_main p r env, keyOnly_main_create p r env⟩
  · intro hbs
    have hk : k ≠ "" := by
      intro h
      subst h
      exact Bool.noConfusion hbs
    simp [effectiveObj, hk, stripLeadingSlash, hbs]
  · intro hbs
    by_cases hk : k = ""
    · subst hk
      simp [effectiveObj]
    · simp [effectiveObj, hk, stripLeadingSlash, hbs]

theorem c9_witness :
    effectiveObj (some "/a/b") = some "a/b" ∧ effectiveObj (some "a") = some "a" ∧
    keyOnly ((effectiveObj paramsGetDifferent.obj).getD "")
      (main_model paramsGetDifferent 0 envGetMatch).1 ∧
    keyOnly (dirObj ((effectiveObj paramsCreateDir.obj).getD ""))
      (main_model paramsCreateDir 0 envCreate).1 :=
  ⟨(c9_object_key_slash paramsGetDifferent 0 envGetMatch "/a/b").1 (by decide),
   (c9_object_key_slash paramsGetDifferent 0 envGetMatch "a").2.1 (by decide),
   (c9_object_key_slash paramsGetDifferent 0 envGetMatch "a").2.2.1 (by decide),
   (c9_object_key_slash paramsCreateDir 0 envCreate "a").2.2.2 (by decide)⟩

/-- Claim C1 counterexample: a PUT invocation with overwrite=latest does not
fail validation with an invalid-configuration error; with differing
fingerprints it performs the upload and exits successfully. -/
theorem c1_counterexample :
    main_validate paramsPutLatest envPutDiff.hasMD5 = Except.ok Overwrite.latest ∧
    (main_model paramsPutLatest 0 envPutDiff).2 = Outcome.exited MsgKind.putComplete true ∧
    Event.uploadFile "k" ∈ (main_model paramsPutLatest 0 envPutDiff).1 := by
  refine ⟨rfl, by decide, by decide⟩

theorem put_flow_nonalways (p : Params) (env : Env) (ow : Overwrite) (key : String)
    (h1 : ¬(p.content = none ∧ p.contentBase64 = none ∧ p.src = none))
    (h2 : ¬(p.src ≠ none ∧ env.srcExists = false))
    (hbe : env.bucketExists = true) (hke : env.keyExists = true)
    (hnal : ow ≠ Overwrite.always) (hnev : ow ≠ Overwrite.never) :
    put_flow p env ow key =
      (if etag_compare env.remoteEtag env.localEtag = true then
        put_skip_path key [Event.headObject key, Event.headObject key] p env
      else upload_path key [Event.headObject key, Event.headObject key] p env) := by
  simp [put_flow, h1, h2, hbe, hke, hnal, hnev]

theorem put_skip_path_no_tags (key : String) (t : List Event) (p : Params) (env : Env)
    (htags : p.tags = none) :
    put_skip_path key t p env =
      (t ++ [Event.getTagging key] ++ [Event.presignUrl key],
        Outcome.exited MsgKind.putSkippedExisting false) := by
  simp [put_skip_path, htags, ensure_tags]

theorem upload_path_no_tags (key : String) (t : List Event) (p : Params) (env : Env)
    (htags : p.tags = none) (hup : env.uploadOk = true) :
    upload_path key t p env =
      (t ++ Event.uploadFile key :: [Event.getTagging key] ++ [Event.presignUrl key],
        Outcome.exited MsgKind.putComplete true) := by
  simp [upload_path, hup, htags, ensure_tags]

/-- Claim C1 amended: a PUT with overwrite=latest is not rejected by
validation; when the remote key exists the module behaves as it does for
overwrite=different, comparing the locally computed fingerprint with the
remote ETag, skipping the upload exactly when they are equal and uploading
otherwise. -/
theorem c1_put_latest_not_rejected (p : Params) (env : Env)
    (hm : p.mode = Mode.put) (ho : p.overwrite = "latest")
    (hreq : requiredParamsOk p = true) (hb : p.bucketNameValid = true)
    (hbe : env.bucketExists = true) (hke : env.keyExists = true)
    (hsrc : p.src ≠ none) (hse : env.srcExists = true) (htags : p.tags = none) :
    main_validate p env.hasMD5 = Except.ok Overwrite.latest ∧
    (∀ r, etag_compare env.remoteEtag env.localEtag = true →
      (main_model p r env).2 = Outcome.exited MsgKind.putSkippedExisting false ∧
      ∀ k, Event.uploadFile k ∉ (main_model p r env).1) ∧
    (∀ r, etag_compare env.remoteEtag env.localEtag = false → env.uploadOk = true →
      (main_model p r env).2 = Outcome.exited MsgKind.putComplete true ∧
      Event.uploadFile ((effectiveObj p.obj).getD "") ∈ (main_model p r env).1) := by
  have hv := main_validate_ok p env.hasMD5 Overwrite.latest hreq hb
    (by rw [ho]; exact coerce_overwrite_latest) (by simp) (by simp [hm])
  have h1 : ¬(p.content = none ∧ p.contentBase64 = none ∧ p.src = none) := fun hc => hsrc hc.2.2
  have h2 : ¬(p.src ≠ none ∧ env.srcExists = false) := by
    rintro ⟨_, hf⟩
    rw [hse] at hf
    exact Bool.noConfusion hf
  refine ⟨hv, ?_, ?_⟩
  · intro r hmatch
    have hmm := main_model_put_eq p r env Overwrite.latest hm hv
    rw [hmm, put_flow_nonalways p env Overwrite.latest _ h1 h2 hbe hke (by simp) (by simp),
      if_pos hmatch, put_skip_path_no_tags _ _ p env htags]
    refine ⟨rfl, ?_⟩
    intro k
    simp
  · intro r hmatch hup
    have hmm := main_model_put_eq p r env Overwrite.latest hm hv
    rw [hmm, put_flow_nonalways p env Overwrite.latest _ h1 h2 hbe hke (by simp) (by simp),
      if_neg (by simp [hmatch]), upload_path_no_tags _ _ p env htags hup]
    refine ⟨rfl, ?_⟩
    simp

theorem c1_witness :
    main_validate paramsPutLatest envPutMatch.hasMD5 = Except.ok Overwrite.latest ∧
    (main_model paramsPutLatest 0 envPutMatch).2 =
      Outcome.exited MsgKind.putSkippedExisting false :=
  ⟨(c1_put_latest_not_rejected paramsPutLatest envPutMatch rfl rfl (by decide) rfl rfl rfl
      (by decide) rfl rfl).1,
   ((c1_put_latest_not_rejected paramsPutLatest envPutMatch rfl rfl (by decide) rfl rfl rfl
      (by decide) rfl rfl).2.1 0 (by decide)).1⟩

/-- Claim C8: an invocation with overwrite=different in a runtime without MD5
support fails with the unsupported-configuration error before the connection
is opened and before any remote call is made: its event trace is empty. -/
theorem c8_md5_required_before_network (p : Params) (r : Nat) (env : Env)
    (ho : p.overwrite = "different") (hmd5 : env.hasMD5 = false)
    (hreq : requiredParamsOk p = true) (hb : p.bucketNameValid = true) :
    main_model p r env = ([], Outcome.failed ErrKind.md5Unavailable) ∧
    Event.connect ∉ (main_model p r env).1 := by
  have hv : main_validate p env.hasMD5 = Except.error ErrKind.md5Unavailable := by
    simp [main_validate, hreq, hb, ho, coerce_overwrite_different, hmd5]
  constructor
  · simp [main_model, hv]
  · simp [main_model, hv]

theorem c8_witness :
    main_model paramsPutDifferent 0 envNoMD5 = ([], Outcome.failed ErrKind.md5Unavailable) ∧
    Event.connect ∉ (main_model paramsPutDifferent 0 envNoMD5).1 :=
  c8_md5_required_before_network paramsPutDifferent 0 envNoMD5 rfl rfl (by decide) rfl

/-- Claim C10 counterexample: the overwrite value "maybe" lies outside the four
policies and is not a recognized boolean literal; the invocation fails with a
validation error instead of being coerced to always or never. -/
theorem c10_counterexample :
    module_boolean "maybe" = none ∧
    main_model paramsOverwriteMaybe 0 envPutDiff =
      ([], Outcome.failed ErrKind.overwriteNotBoolean) := by
  refine ⟨by decide, by decide⟩

theorem coerce_overwrite_other (s : String) (h : s ∉ overwriteChoices) :
    coerce_overwrite s =
      (match module_boolean s with
        | some true => Except.ok Overwrite.always
        | some false => Except.ok Overwrite.never
        | none => Except.error ErrKind.overwriteNotBoolean) := by
  simp only [overwriteChoices, List.mem_cons, List.mem_singleton, not_or] at h
  obtain ⟨h1, h2, h3, h4⟩ := h
  simp [coerce_overwrite, h1, h2, h3, h4]

/-- Claim C10 amended: an overwrite value outside the four policies is passed
through the host runtime's boolean conversion before any policy decision:
recognized truthy literals become always, recognized falsy literals become
never, and an unrecognized value is a validation error rather than a
coercion. -/
theorem c10_overwrite_boolean_coercion (s : String) :
    (s ∉ overwriteChoices → module_boolean s = some true →
      coerce_overwrite s = Except.ok Overwrite.always) ∧
    (s ∉ overwriteChoices → module_boolean s = some false →
      coerce_overwrite s = Except.ok Overwrite.never) ∧
    (s ∉ overwriteChoices → module_boolean s = none →
      coerce_overwrite s = Except.error ErrKind.overwriteNotBoolean) ∧
    (∀ p : Params, ∀ hasMD5 : Bool, p.overwrite = s → s ∉ overwriteChoices →
      module_boolean s = some true → p.bucketNameValid = true →
      requiredParamsOk p = true → p.mode ≠ Mode.delete →
      main_validate p hasMD5 = Except.ok Overwrite.always) := by
  refine ⟨?_, ?_, ?_, ?_⟩
  · intro hmem hb
    rw [coerce_overwrite_other s hmem, hb]
  · intro hmem hb
    rw [coerce_overwrite_other s hmem, hb]
  · intro hmem hb
    rw [coerce_overwrite_other s hmem, hb]
  · intro p hasMD5 ho hmem hb hbv hreq hdel
    have hco : coerce_overwrite p.overwrite = Except.ok Overwrite.always := by
      rw [ho, coerce_overwrite_other s hmem, hb]
    exact main_validate_ok p hasMD5 Overwrite.always hreq hbv hco (by simp) hdel

theorem c10_witness :
    coerce_overwrite "yes" = Except.ok Overwrite.always ∧
    coerce_overwrite "0" = Except.ok Overwrite.never ∧
    coerce_overwrite "sometimes" = Except.error ErrKind.overwriteNotBoolean ∧
    main_validate paramsOverwriteYes true = Except.ok Overwrite.always :=
  ⟨(c10_overwrite_boolean_coercion "yes").1 (by decide) (by decide),
   (c10_overwrite_boolean_coercion "0").2.1 (by decide) (by decide),
   (c10_overwrite_boolean_coercion "sometimes").2.2.1 (by decide) (by decide),
   (c10_overwrite_boolean_coercion "yes").2.2.2 paramsOverwriteYes true rfl (by decide)
     (by decide) rfl (by decide) (by decide)⟩
